import Mathlib

/-
  Verification development for the report-builder program
  (src/report_builder.py).

  The program fetches paginated user/todo records over HTTP, validates
  them, composes a per-user text report, and manages the on-disk report
  lifecycle (archive the prior report under a timestamped name, write
  the new one, verify the write, roll back to the most recent archival
  report on failure).

  Shallow embedding conventions:
  * Python dict values are modelled by `PyVal` (strings, ints, bools and
    nested dicts; the shapes the JSON endpoints produce and the program
    touches).  A dict is an association list with unique keys; lookup of
    a missing key is a `KeyError`, subscripting a non-dict by a string
    key is a `TypeError`.  `except KeyError:` handlers catch exactly
    `PyErr.keyError`; everything else propagates, as in Python.
  * `print` diagnostics are modelled as an explicit `List String` of
    emitted lines (one entry per `print` call, args joined by a space).
  * The filesystem directory `tasks/` is an association list from
    filename to file content.  `os.listdir` is the key list in list
    order (the OS order is unspecified; no theorem depends on the
    order beyond what the code itself guarantees).
  * The clock: `create_report` receives the rendered `%d.%m.%Y %H:%M`
    string as a parameter.  In `get_last_report` the code compares
    `today - file_date` timedeltas for a fixed `today`; since
    `(today - a) < (today - b)` iff `b < a` (datetime arithmetic is
    exact), the selection is modelled by comparing the parsed datetimes
    directly, reversed (`dateLt`), which is Python's `datetime <`
    (componentwise lexicographic on valid dates).
  * The write step of `save_report` is parameterised by its outcome
    `writeResult : Option String`: `some s` means the canonical path
    holds `s` after the `try` block (`s` = the report for a successful
    write, anything else for a torn/failed write that left content);
    `none` means the `open` failed and no file was created.  The
    `except` branch only prints, and `finally` always runs, as in the
    source.
-/

/-! ## Python value model -/

inductive PyErr where
  | keyError
  | typeError
  | attributeError

/-- Values a fetched JSON record can hold, as far as the program touches
them: strings, integers, booleans and nested objects. -/
inductive PyVal where
  | str (s : String)
  | int (n : Int)
  | bool (b : Bool)
  | dict (entries : List (String × PyVal))

abbrev PyDict := List (String × PyVal)

/-- `d[k]` on a Python dict: the value, or `KeyError` if absent. -/
def dictGet (d : PyDict) (k : String) : Except PyErr PyVal :=
  match d with
  | [] => .error .keyError
  | (k', v) :: rest => if k' = k then .ok v else dictGet rest k

/-- `v[k]` for a string key `k`: a dict lookup when `v` is a dict,
`TypeError` otherwise (subscripting an int/bool/str/list by a string
key raises `TypeError` in Python). -/
def subscriptField (v : PyVal) (k : String) : Except PyErr PyVal :=
  match v with
  | .dict d => dictGet d k
  | _ => .error .typeError

/-- Python `str()` for the value shapes the program interpolates into
reports and diagnostics.  The rendering of a nested dict abstracts
CPython's repr; no theorem evaluates it. -/
def pyStr (v : PyVal) : String :=
  match v with
  | .str s => s
  | .int n => toString n
  | .bool b => if b then "True" else "False"
  | .dict _ => "<dict>"

/-- Python `v == b` for a literal boolean `b`.  Python identifies
`False` with `0` and `True` with `1` (bool is an int subclass); any
other value compares unequal to a bool. -/
def pyEqBool (v : PyVal) (b : Bool) : Bool :=
  match v with
  | .bool b' => b' == b
  | .int n => n == (if b then 1 else 0)
  | _ => false

/-- Python `len(v)`: defined for strings (code points) and dicts
(number of keys); `TypeError` on ints and bools. -/
def pyLen (v : PyVal) : Except PyErr Nat :=
  match v with
  | .str s => .ok s.length
  | .dict d => .ok d.length
  | _ => .error .typeError

/-- `v[:46] + "..."`: string slicing plus concatenation; slicing a
dict raises `TypeError` (unhashable slice), and `+ "..."` on any
non-string raises `TypeError`. -/
def pySliceEllipsis (v : PyVal) : Except PyErr PyVal :=
  match v with
  | .str s => .ok (.str (String.mk (s.toList.take 46) ++ "..."))
  | _ => .error .typeError

/-- `"- " + v + "\n"`: string concatenation; `TypeError` when `v` is
not a string. -/
def pyAddTitle (v : PyVal) : Except PyErr String :=
  match v with
  | .str s => .ok ("- " ++ s ++ "\n")
  | _ => .error .typeError

/-- `v.replace("/", "(f_slash)")`: `AttributeError` when `v` is not a
string. -/
def pyReplaceSlash (v : PyVal) : Except PyErr String :=
  match v with
  | .str s => .ok (s.replace "/" "(f_slash)")
  | _ => .error .attributeError

/-! ## Validator (source lines 78-100) -/

/-- `validate_user`: `try: user["company"]["name"]; user["name"];
user["email"] except KeyError: print(...); return False; return True`.
Only `KeyError` is caught; a `TypeError` (e.g. `user["company"]` holds
a non-dict) propagates.  Result: the returned bool and the printed
diagnostics. -/
def validate_user (user : PyDict) : Except PyErr (Bool × List String) :=
  let body : Except PyErr Unit := do
    let c ← dictGet user "company"
    let _ ← subscriptField c "name"
    let _ ← dictGet user "name"
    let _ ← dictGet user "email"
    pure ()
  match body with
  | .ok _ => .ok (true, [])
  | .error .keyError => .ok (false, ["User object is malformed"])
  | .error e => .error e

/-- `validate_todo`: `try: todo["title"]; todo["completed"] except
KeyError: print(...); return False; return True`. -/
def validate_todo (todo : PyDict) : Except PyErr (Bool × List String) :=
  let body : Except PyErr Unit := do
    let _ ← dictGet todo "title"
    let _ ← dictGet todo "completed"
    pure ()
  match body with
  | .ok _ => .ok (true, [])
  | .error .keyError => .ok (false, ["ToDo object is malformed"])
  | .error e => .error e

/-! ## Data fetcher (source lines 19-51) -/

/-- An HTTP response as the program observes it: the status code and
the JSON-decoded body (`page.json()`), which the endpoints return as a
list of records. -/
structure HttpResponse where
  status : Nat
  body : List PyVal

/-- `response.raise_for_status()` raises `HTTPError` exactly for 4xx
client and 5xx server statuses; for any other status it does nothing
and control falls through. -/
def abortsFetch (r : HttpResponse) : Bool :=
  decide (r.status ≠ 200) && decide (400 ≤ r.status) && decide (r.status ≤ 599)

/-- Outcome of draining the page generator: all yielded pages followed
by normal termination (`done`), an `HTTPError` carrying the status with
the pages yielded before it (`httpError`), or fuel exhaustion (the
Python loop is unbounded; `fuelOut` never occurs once a terminating
page exists within fuel). -/
inductive FetchOutcome where
  | done (pages : List (List PyVal))
  | httpError (status : Nat) (pages : List (List PyVal))
  | fuelOut

/-- The generator loop shared by `get_users` and `get_todos`:
request page `pageNum`; on `status != 200` call `raise_for_status`
(which only raises for 4xx/5xx); stop when `page.json() == []`;
otherwise yield the page and continue with `pageNum + 1`. -/
def fetch_from (resp : Nat → HttpResponse) : Nat → Nat → FetchOutcome
  | 0, _ => .fuelOut
  | fuel + 1, pageNum =>
    let page := resp pageNum
    if abortsFetch page then
      .httpError page.status []
    else if page.body.isEmpty then
      .done []
    else
      match fetch_from resp fuel (pageNum + 1) with
      | .done ps => .done (page.body :: ps)
      | .httpError s ps => .httpError s (page.body :: ps)
      | .fuelOut => .fuelOut

/-- `get_users`: pages of the users endpoint, starting from page 1. -/
def get_users (resp : Nat → HttpResponse) (fuel : Nat) : FetchOutcome :=
  fetch_from resp fuel 1

/-- `get_todos(user_id)`: pages of the todos endpoint filtered by the
owning user id, starting from page 1. -/
def get_todos (resp : PyVal → Nat → HttpResponse) (userId : PyVal) (fuel : Nat) :
    FetchOutcome :=
  fetch_from (resp userId) fuel 1

/-! ## Report composer (source lines 9-13 and 119-164) -/

/-- Loop state of `create_report`'s task loop: the rendered current and
completed task lines, both counters, and the diagnostics printed so
far. -/
structure TallyAcc where
  cur : String
  comp : String
  curTotal : Nat
  compTotal : Nat
  logs : List String

def initTally : TallyAcc := ⟨"", "", 0, 0, []⟩

/-- One iteration of `create_report`'s task loop:
`if validate_todo(task): if len(task["title"]) > 46: task["title"] =
task["title"][:46] + "..."; if task["completed"] == False: cur += ...
elif task["completed"] == True: comp += ...`.  A task whose
`completed` compares (Python `==`) unequal to both `False` and `True`
falls through both branches and leaves the state unchanged. -/
def tallyTask (acc : TallyAcc) (task : PyDict) : Except PyErr TallyAcc :=
  match validate_todo task with
  | .error e => .error e
  | .ok (false, l) => .ok { acc with logs := acc.logs ++ l }
  | .ok (true, _) =>
    match dictGet task "title" with
    | .error e => .error e
    | .ok title0 =>
      match pyLen title0 with
      | .error e => .error e
      | .ok n =>
        match (if 46 < n then pySliceEllipsis title0 else .ok title0 :
            Except PyErr PyVal) with
        | .error e => .error e
        | .ok title =>
          match dictGet task "completed" with
          | .error e => .error e
          | .ok completed =>
            if pyEqBool completed false then
              match pyAddTitle title with
              | .error e => .error e
              | .ok line =>
                .ok { acc with cur := acc.cur ++ line, curTotal := acc.curTotal + 1 }
            else if pyEqBool completed true then
              match pyAddTitle title with
              | .error e => .error e
              | .ok line =>
                .ok { acc with comp := acc.comp ++ line, compTotal := acc.compTotal + 1 }
            else
              .ok acc

/-- The inner `for task in page` loop. -/
def tallyList (tasks : List PyDict) (acc : TallyAcc) : Except PyErr TallyAcc :=
  match tasks with
  | [] => .ok acc
  | t :: rest =>
    match tallyTask acc t with
    | .error e => .error e
    | .ok acc2 => tallyList rest acc2

/-- The outer `for page in get_todos(user["id"])` loop. -/
def tallyPages (pages : List (List PyDict)) (acc : TallyAcc) : Except PyErr TallyAcc :=
  match pages with
  | [] => .ok acc
  | p :: rest =>
    match tallyList p acc with
    | .error e => .error e
    | .ok acc2 => tallyPages rest acc2

/-- The report text assembled from the templates `HEADER`,
`TOTAL_TASKS`, `TOTAL_CURRENT_TASKS` and `TOTAL_COMPLETED_TASKS`. -/
def renderReport (company fullname email : PyVal) (time : String)
    (total cur comp : Nat) (curTasks compTasks : String) : String :=
  "# Report for " ++ pyStr company ++ ".\n"
    ++ pyStr fullname ++ " <" ++ pyStr email ++ "> " ++ time ++ "\n"
    ++ "Total tasks: " ++ toString total ++ "\n"
    ++ "\n## Current tasks (" ++ toString cur ++ "):\n" ++ curTasks
    ++ "\n## Completed tasks (" ++ toString comp ++ "):\n" ++ compTasks

/-- `create_report(user)`: reads `user["company"]["name"]`,
`user["name"]`, `user["email"]`, then iterates
`get_todos(user["id"])`, and renders the templates.  Returns `None`
when the total task count is zero, otherwise the report text; paired
with the diagnostics printed by `validate_todo`.  `todoSrc` supplies
the already-drained pages of the todos endpoint for a given user id
(the fetch itself is modelled by `get_todos`); `time` is the rendered
`datetime.now().strftime("%d.%m.%Y %H:%M")`. -/
def create_report (user : PyDict) (todoSrc : PyVal → List (List PyDict))
    (time : String) : Except PyErr (Option String × List String) :=
  match dictGet user "company" with
  | .error e => .error e
  | .ok c =>
    match subscriptField c "name" with
    | .error e => .error e
    | .ok company =>
      match dictGet user "name" with
      | .error e => .error e
      | .ok fullname =>
        match dictGet user "email" with
        | .error e => .error e
        | .ok email =>
          match dictGet user "id" with
          | .error e => .error e
          | .ok idV =>
            match tallyPages (todoSrc idV) initTally with
            | .error e => .error e
            | .ok t =>
              let total := t.curTotal + t.compTotal
              let report := renderReport company fullname email time
                total t.curTotal t.compTotal t.cur t.comp
              if total = 0 then .ok (none, t.logs) else .ok (some report, t.logs)

/-! ## Orchestrator (source lines 257-273) -/

/-- What the `__main__` loop does with one fetched user: skip it with a
diagnostic (failed validation / empty report) or hand the composed
report and sanitized username to `save_report`. -/
inductive UserOutcome where
  | skippedInvalid
  | skippedEmpty
  | saved (report : String) (username : String)

/-- One iteration of the `for user in page` loop: `if not
validate_user(user): print(user["username"], " doesn't have required");
continue`, then `report = create_report(user)`, then either
`print(user["username"], " doesn't have todos")` or
`username = user["username"].replace("/", "(f_slash)");
save_report(report, username)`.  Note `user["username"]` is looked up
in every branch and is not checked by `validate_user`; a missing
`username` key raises `KeyError` out of the loop. -/
def process_user (user : PyDict) (todoSrc : PyVal → List (List PyDict))
    (time : String) : Except PyErr (UserOutcome × List String) :=
  match validate_user user with
  | .error e => .error e
  | .ok (false, vlogs) =>
    match dictGet user "username" with
    | .error e => .error e
    | .ok un =>
      .ok (.skippedInvalid, vlogs ++ [pyStr un ++ " " ++ " doesn\x27t have required"])
  | .ok (true, vlogs) =>
    match create_report user todoSrc time with
    | .error e => .error e
    | .ok (none, rlogs) =>
      match dictGet user "username" with
      | .error e => .error e
      | .ok un =>
        .ok (.skippedEmpty, vlogs ++ rlogs ++ [pyStr un ++ " " ++ " doesn\x27t have todos"])
    | .ok (some rep, rlogs) =>
      match dictGet user "username" with
      | .error e => .error e
      | .ok un =>
        match pyReplaceSlash un with
        | .error e => .error e
        | .ok uname => .ok (.saved rep uname, vlogs ++ rlogs)

/-- The batch over one fetched page of users: sequential, and an
uncaught exception from any iteration aborts the whole loop (nothing
in `__main__` catches). -/
def run_batch (users : List PyDict) (todoSrc : PyVal → List (List PyDict))
    (time : String) : Except PyErr (List (UserOutcome × List String)) :=
  match users with
  | [] => .ok []
  | u :: rest =>
    match process_user u todoSrc time with
    | .error e => .error e
    | .ok r =>
      match run_batch rest todoSrc time with
      | .error e => .error e
      | .ok rs => .ok (r :: rs)

/-! ## Filesystem model -/

/-- The `tasks/` directory: filename to file content, unique keys.
All paths in the source are `"tasks/" + filename`; the uniform prefix
is dropped and the directory is keyed by bare filenames, which is also
what `os.listdir("tasks/")` yields. -/
abbrev Dir := List (String × String)

/-- `open(path).read()` / `os.path.isfile`: the content when the file
exists. -/
def lookupFile (d : Dir) (n : String) : Option String :=
  match d with
  | [] => none
  | (k, v) :: rest => if k = n then some v else lookupFile rest n

/-- `os.remove(n)` (and the clearing half of a write/rename). -/
def eraseFile (d : Dir) (n : String) : Dir :=
  match d with
  | [] => []
  | p :: rest => if p.1 = n then eraseFile rest n else p :: eraseFile rest n

/-- `open(n, "w").write(v)`: `n` now holds exactly `v`.  (The entry is
re-inserted at the front; `os.listdir` order is unspecified, so the
position carries no information.) -/
def setFile (d : Dir) (n : String) (v : String) : Dir :=
  (n, v) :: eraseFile d n

/-- `os.rename(src, dst)`: moves the content of `src` to `dst`,
silently replacing an existing `dst` (POSIX semantics).  The source
only ever renames files it has just observed to exist, so the
missing-`src` branch is unreachable there. -/
def renameFile (d : Dir) (src dst : String) : Dir :=
  match lookupFile d src with
  | none => d
  | some c => setFile (eraseFile d src) dst c

/-! ## Timestamp extraction: `get_date` (source lines 56-75) -/

/-- One anchored attempt of the `get_date` regex
`(\d{2}).(\d{2}).(\d{4}) (\d\d):(\d\d)` at the head of the character
list.  The `.` between the groups is the regex wildcard: it matches
any character except a newline, not only a literal dot.  On success
the groups are already assembled in the `"{year}-{month}-{day}T{hour}:{minute}"`
output format of `get_date`. -/
def tryDateAt (cs : List Char) : Option String :=
  match cs with
  | d1 :: d2 :: s1 :: m1 :: m2 :: s2 :: y1 :: y2 :: y3 :: y4 :: sp
      :: h1 :: h2 :: co :: n1 :: n2 :: _ =>
    if d1.isDigit && d2.isDigit && s1 != '\n' && m1.isDigit && m2.isDigit
        && s2 != '\n' && y1.isDigit && y2.isDigit && y3.isDigit && y4.isDigit
        && sp == ' ' && h1.isDigit && h2.isDigit && co == ':' && n1.isDigit
        && n2.isDigit then
      some (String.mk [y1, y2, y3, y4, '-', m1, m2, '-', d1, d2, 'T',
        h1, h2, ':', n1, n2])
    else
      none
  | _ => none

/-- `re.search`: the leftmost position at which the pattern matches
(the pattern is fixed-length, so no backtracking arises). -/
def searchDate : List Char → Option String
  | [] => none
  | c :: cs =>
    match tryDateAt (c :: cs) with
    | some s => some s
    | none => searchDate cs

/-- `get_date` on the file content: the first date/time pattern in the
text, reformatted, or `none` for the degenerate case in which the
source returns the int sentinel `0` (which later renders as `"0"`
inside the archival filename). -/
def get_date (content : String) : Option String :=
  searchDate content.data

/-- The extracted date as it is interpolated into the archival
filename: the formatted timestamp, or `"0"` (the f-string rendering of
the int sentinel). -/
def dateOrZero (content : String) : String :=
  match get_date content with
  | some s => s
  | none => "0"

/-! ## Filenames (source lines 167-172) -/

/-- `create_filename(username, date=None)`: `"{username}.txt"` for the
current report, `"old_{username}_{date}.txt"` for an archival one. -/
def create_filename (username : String) (date : Option String) : String :=
  match date with
  | none => username ++ ".txt"
  | some d => "old_" ++ username ++ "_" ++ d ++ ".txt"

/-! ## `get_last_report` (source lines 208-253) -/

/-- A `datetime.datetime` as far as the program constructs them:
year, month, day, hour, minute. -/
structure PyDate where
  year : Nat
  month : Nat
  day : Nat
  hour : Nat
  minute : Nat

def isLeap (y : Nat) : Bool :=
  (y % 4 == 0 && y % 100 != 0) || y % 400 == 0

def daysInMonth (y m : Nat) : Nat :=
  if m = 2 then (if isLeap y then 29 else 28)
  else if m = 4 || m = 6 || m = 9 || m = 11 then 30
  else 31

/-- `datetime.datetime(year=y, month=m, day=d, hour=h, minute=mi)`:
`none` models the `ValueError` the constructor raises on out-of-range
components (it propagates uncaught out of `get_last_report`). -/
def mkDatetime (y m d h mi : Nat) : Option PyDate :=
  if 1 ≤ y && y ≤ 9999 && 1 ≤ m && m ≤ 12 && 1 ≤ d && d ≤ daysInMonth y m
      && h ≤ 23 && mi ≤ 59 then
    some ⟨y, m, d, h, mi⟩
  else
    none

/-- Python `datetime <`: componentwise lexicographic.  The source
compares `today - file_date` timedeltas and keeps the minimum; since
`(today - a) < (today - b)` iff `b < a`, the loop keeps the file with
the `dateLt`-largest parsed date (first listed on ties: the strict
`diff < min_dif` does not replace on equality). -/
def dateLt (a b : PyDate) : Bool :=
  if a.year ≠ b.year then decide (a.year < b.year)
  else if a.month ≠ b.month then decide (a.month < b.month)
  else if a.day ≠ b.day then decide (a.day < b.day)
  else if a.hour ≠ b.hour then decide (a.hour < b.hour)
  else decide (a.minute < b.minute)

/-- Strip a literal character prefix; `none` when it does not match. -/
def dropPrefixChars : List Char → List Char → Option (List Char)
  | [], rest => some rest
  | _ :: _, [] => none
  | p :: ps, c :: cs => if p == c then dropPrefixChars ps cs else none

def charsToNat (cs : List Char) : Nat :=
  cs.foldl (fun a c => a * 10 + (c.toNat - '0'.toNat)) 0

/-- The tail of the `get_last_report` regex after the literal
`old_{username}_` prefix: `(\d{4})-(\d{2})-(\d{2})T(\d{2}):(\d{2}).txt`.
The `.` before `txt` is the wildcard (any character except newline),
and `re.match` anchors only at the start, so arbitrary trailing
characters are accepted. -/
def matchArchivalTail (rest : List Char) : Option (Nat × Nat × Nat × Nat × Nat) :=
  match rest with
  | y1 :: y2 :: y3 :: y4 :: c1 :: m1 :: m2 :: c2 :: d1 :: d2 :: c3
      :: h1 :: h2 :: c4 :: n1 :: n2 :: c5 :: t1 :: t2 :: t3 :: _ =>
    if y1.isDigit && y2.isDigit && y3.isDigit && y4.isDigit && c1 == '-'
        && m1.isDigit && m2.isDigit && c2 == '-' && d1.isDigit && d2.isDigit
        && c3 == 'T' && h1.isDigit && h2.isDigit && c4 == ':' && n1.isDigit
        && n2.isDigit && c5 != '\n' && t1 == 't' && t2 == 'x' && t3 == 't' then
      some (charsToNat [y1, y2, y3, y4], charsToNat [m1, m2],
        charsToNat [d1, d2], charsToNat [h1, h2], charsToNat [n1, n2])
    else
      none
  | _ => none

/-- The Python `re` metacharacters other than the grouping
parentheses (which `regexFragmentLiteral` handles): dot, caret,
dollar, star, plus, question mark, both braces, both square brackets,
bar and backslash. -/
def regexHardMeta : List Char :=
  ['.', '^', '$', '*', '+', '?', '\x7b', '\x7d', '[', ']', '|', '\\']

/-- The source splices the username into the rollback regex
**unescaped** (`f"old_{username}_..."`), so the username is read as
regex source text.  This interprets such a fragment when it consists
of ordinary characters and balanced plain parentheses: a `(` not
followed by `?` opens an inert group and `)` closes it (the code's
regex extracts its fields through *named* groups, so extra positional
groups change nothing), and the denotation is the literal character
sequence the fragment matches — the fragment with the parentheses
deleted.  In particular the sanitizer output `(f_slash)` denotes the
literal text `f_slash`.  A fragment using any other metacharacter, an
unbalanced paren (a `re.error` in the source) or special group syntax
is outside the modelled subset: `none`. -/
def regexFragmentLiteral : List Char → Nat → Option (List Char)
  | [], 0 => some []
  | [], _ + 1 => none
  | c :: cs, depth =>
    if c = '(' then
      match cs with
      | '?' :: _ => none
      | _ => regexFragmentLiteral cs (depth + 1)
    else if c = ')' then
      match depth with
      | 0 => none
      | d + 1 => regexFragmentLiteral cs d
    else if c ∈ regexHardMeta then none
    else (regexFragmentLiteral cs depth).map (c :: ·)

/-- The literal text the spliced username fragment matches (balanced
groups deleted), or `none` outside the modelled regex subset.  For a
username with no metacharacter at all this is the username itself. -/
def regexUsernameLiteral (username : String) : Option (List Char) :=
  regexFragmentLiteral username.data 0

/-- `re.match(f"old_{username}_(\d{4})-(\d{2})-(\d{2})T(\d{2}):(\d{2}).txt",
file_name)` with the captured groups passed through `int(...)`.  The
username is interpolated unescaped, so the filename must start with
`old_`, then the *literal denotation* of the username fragment (e.g.
`af_slashb` for the sanitized username `a(f_slash)b`), then the
underscore and the timestamp groups.  For a username fragment outside
the modelled regex subset the matcher answers `none`; theorems meant
to transfer to the program quantify inside the subset. -/
def matchArchivalName (username fname : String) : Option (Nat × Nat × Nat × Nat × Nat) :=
  match regexUsernameLiteral username with
  | none => none
  | some lit =>
    match dropPrefixChars ("old_".data ++ lit ++ "_".data) fname.data with
    | none => none
    | some rest => matchArchivalTail rest

/-- The parsed datetime of a directory entry that matches the archival
pattern for `username` (and `none` when it does not match or the
matched groups are no valid datetime). -/
def dateOfFile (username fname : String) : Option PyDate :=
  match matchArchivalName username fname with
  | none => none
  | some (y, m, d, h, mi) => mkDatetime y m d h mi

/-- The `for file_name in file_names` loop of `get_last_report`,
carrying `(min date so far, its filename)`; a matching filename whose
groups form no valid datetime raises `ValueError` (`.error ()`). -/
def glr_loop (username : String) : List String → Option (PyDate × String) →
    Except Unit (Option String)
  | [], acc => .ok (acc.map Prod.snd)
  | f :: rest, acc =>
    match matchArchivalName username f with
    | none => glr_loop username rest acc
    | some (y, m, d, h, mi) =>
      match mkDatetime y m d h mi with
      | none => .error ()
      | some fd =>
        match acc with
        | none => glr_loop username rest (some (fd, f))
        | some (best, bf) =>
          if dateLt best fd then glr_loop username rest (some (fd, f))
          else glr_loop username rest (some (best, bf))

/-- `get_last_report(username)`: scan `os.listdir("tasks/")` and return
the matching archival filename with the smallest `today - file_date`
(equivalently, the largest embedded timestamp), or `None`. -/
def get_last_report (fs : Dir) (username : String) : Except Unit (Option String) :=
  glr_loop username (fs.map Prod.fst) none

/-! ## `save_report` (source lines 103-115 and 175-205) -/

/-- `validate_file(file_path, report)`: `True`/`False` for a
content comparison of the just-written file, `None` when the file does
not exist. -/
def validate_file (fs : Dir) (path report : String) : Option Bool :=
  match lookupFile fs path with
  | some content => some (content == report)
  | none => none

/-- The check-and-archive step of `save_report`: if the current-named
file exists, extract the date from its content and rename it to the
archival name built from that date (the int sentinel `0` renders as
`"0"`). -/
def archivePhase (fs : Dir) (username : String) : Dir :=
  let report_path := create_filename username none
  match lookupFile fs report_path with
  | some content =>
    renameFile fs report_path (create_filename username (some (dateOrZero content)))
  | none => fs

/-- The write step: the canonical path ends up holding `writeResult`
(`some s`: the file exists with content `s`; `none`: the `open`
raised and no file was created; the `except` branch only prints). -/
def writePhase (fs : Dir) (path : String) (writeResult : Option String) : Dir :=
  match writeResult with
  | some s => setFile fs path s
  | none => fs

/-- The rollback search and restore shared by the `invalid` and
`absent` outcomes: `last_report = get_last_report(username); if
last_report != None: os.rename("tasks/" + last_report, report_path)`. -/
def afterSearch (fs3 : Dir) (rp username : String) : Except Unit Dir :=
  match get_last_report fs3 username with
  | .error e => .error e
  | .ok none => .ok fs3
  | .ok (some last) => .ok (renameFile fs3 last rp)

/-- The `finally` block of `save_report`: verify the write, and on
`False` delete the corrupt file before the rollback search; on `None`
search directly. -/
def reconcile (fs2 : Dir) (rp report username : String) : Except Unit Dir :=
  match validate_file fs2 rp report with
  | some true => .ok fs2
  | some false => afterSearch (eraseFile fs2 rp) rp username
  | none => afterSearch fs2 rp username

/-- `save_report(report, username)`: archive a pre-existing current
file, write, verify, reconcile.  The result is the directory after the
call returns; `.error ()` is an uncaught `ValueError` from
`get_last_report`. -/
def save_report (fs : Dir) (report username : String) (writeResult : Option String) :
    Except Unit Dir :=
  let report_path := create_filename username none
  reconcile (writePhase (archivePhase fs username) report_path writeResult)
    report_path report username

/-- Modelled from the spec: the literal archival filename pattern
`old_{username}_{YYYY-MM-DDTHH:MM}.txt` as the claim about
`get_last_report` states it — a real dot, a literal `txt` and nothing
after it.  Used only to compare the claim's pattern with the looser
one the code implements. -/
def specArchivalPattern (username fname : String) : Bool :=
  match dropPrefixChars ("old_" ++ username ++ "_").data fname.data with
  | none => false
  | some rest =>
    match rest with
    | [y1, y2, y3, y4, c1, m1, m2, c2, d1, d2, c3, h1, h2, c4, n1, n2,
        c5, t1, t2, t3] =>
      y1.isDigit && y2.isDigit && y3.isDigit && y4.isDigit && c1 == '-'
        && m1.isDigit && m2.isDigit && c2 == '-' && d1.isDigit && d2.isDigit
        && c3 == 'T' && h1.isDigit && h2.isDigit && c4 == ':' && n1.isDigit
        && n2.isDigit && c5 == '.' && t1 == 't' && t2 == 'x' && t3 == 't'
    | _ => false

/-! ## Helper lemmas: filesystem operations -/

theorem lookupFile_eraseFile_self (d : Dir) (n : String) :
    lookupFile (eraseFile d n) n = none := by
  induction d with
  | nil => rfl
  | cons p rest ih =>
    by_cases h : p.1 = n
    · simpa [eraseFile, h] using ih
    · simpa [eraseFile, lookupFile, h] using ih

theorem lookupFile_eraseFile_ne (d : Dir) {m n : String} (h : m ≠ n) :
    lookupFile (eraseFile d n) m = lookupFile d m := by
  induction d with
  | nil => rfl
  | cons p rest ih =>
    by_cases hp : p.1 = n
    · have hpm : ¬ p.1 = m := by rw [hp]; exact fun hh => h hh.symm
      rw [show eraseFile (p :: rest) n = eraseFile rest n by simp [eraseFile, hp]]
      rw [show lookupFile (p :: rest) m = lookupFile rest m by
        simp [lookupFile, hpm]]
      exact ih
    · rw [show eraseFile (p :: rest) n = p :: eraseFile rest n by
        simp [eraseFile, hp]]
      by_cases hm : p.1 = m
      · simp [lookupFile, hm]
      · simp only [lookupFile, if_neg hm]
        exact ih

theorem lookupFile_setFile_self (d : Dir) (n v : String) :
    lookupFile (setFile d n v) n = some v := by
  simp [setFile, lookupFile]

theorem lookupFile_setFile_ne (d : Dir) {m n : String} (v : String) (h : m ≠ n) :
    lookupFile (setFile d n v) m = lookupFile d m := by
  have hnm : ¬ n = m := fun hh => h hh.symm
  simp [setFile, lookupFile, hnm, lookupFile_eraseFile_ne d h]

theorem lookupFile_renameFile_dst (d : Dir) {src dst : String} {c : String}
    (hsrc : lookupFile d src = some c) :
    lookupFile (renameFile d src dst) dst = some c := by
  simp [renameFile, hsrc, lookupFile_setFile_self]

theorem lookupFile_renameFile_src (d : Dir) {src dst : String} {c : String}
    (hsrc : lookupFile d src = some c) (hne : src ≠ dst) :
    lookupFile (renameFile d src dst) src = none := by
  simp [renameFile, hsrc, lookupFile_setFile_ne _ _ hne,
    lookupFile_eraseFile_self]

theorem lookupFile_renameFile_other (d : Dir) {src dst m : String} {c : String}
    (hsrc : lookupFile d src = some c) (hm1 : m ≠ src) (hm2 : m ≠ dst) :
    lookupFile (renameFile d src dst) m = lookupFile d m := by
  simp [renameFile, hsrc, lookupFile_setFile_ne _ _ hm2,
    lookupFile_eraseFile_ne _ hm1]

/-- Number of directory entries bearing a given name. -/
def countName (d : Dir) (n : String) : Nat :=
  match d with
  | [] => 0
  | p :: rest => if p.1 = n then countName rest n + 1 else countName rest n

theorem countName_eraseFile (d : Dir) (n : String) :
    countName (eraseFile d n) n = 0 := by
  induction d with
  | nil => rfl
  | cons p rest ih =>
    by_cases h : p.1 = n <;> simpa [eraseFile, countName, h] using ih

theorem countName_setFile (d : Dir) (n v : String) :
    countName (setFile d n v) n = 1 := by
  simp [setFile, countName, countName_eraseFile d n]

theorem lookupFile_isSome_of_mem_keys (d : Dir) {n : String}
    (h : n ∈ d.map Prod.fst) : ∃ c, lookupFile d n = some c := by
  induction d with
  | nil => simp at h
  | cons p rest ih =>
    by_cases hp : p.1 = n
    · exact ⟨p.2, by simp [lookupFile, hp]⟩
    · have : n ∈ rest.map Prod.fst := by
        rcases List.mem_map.mp h with ⟨q, hq, hq2⟩
        rcases List.mem_cons.mp hq with h1 | h1
        · exact absurd (h1 ▸ hq2) hp
        · exact List.mem_map.mpr ⟨q, h1, hq2⟩
      rcases ih this with ⟨c, hc⟩
      exact ⟨c, by simp [lookupFile, hp, hc]⟩

theorem mem_keys_eraseFile_iff (d : Dir) {m n : String} (h : m ≠ n) :
    m ∈ (eraseFile d n).map Prod.fst ↔ m ∈ d.map Prod.fst := by
  induction d with
  | nil => simp [eraseFile]
  | cons p rest ih =>
    by_cases hp : p.1 = n
    · have hpm : ¬ m = p.1 := by rw [hp]; exact h
      rw [show eraseFile (p :: rest) n = eraseFile rest n by simp [eraseFile, hp]]
      rw [ih]
      constructor
      · intro hh; exact List.mem_map.mpr
          (by rcases List.mem_map.mp hh with ⟨q, hq, hq2⟩;
              exact ⟨q, List.mem_cons_of_mem _ hq, hq2⟩)
      · intro hh
        rcases List.mem_map.mp hh with ⟨q, hq, hq2⟩
        rcases List.mem_cons.mp hq with h1 | h1
        · exact absurd (by rw [← hq2, h1]) hpm
        · exact List.mem_map.mpr ⟨q, h1, hq2⟩
    · rw [show eraseFile (p :: rest) n = p :: eraseFile rest n by
        simp [eraseFile, hp]]
      simp only [List.map_cons, List.mem_cons]
      rw [ih]

theorem mem_keys_setFile_iff (d : Dir) {m n : String} (v : String) (h : m ≠ n) :
    m ∈ (setFile d n v).map Prod.fst ↔ m ∈ d.map Prod.fst := by
  have hnm : ¬ m = n := h
  simp only [setFile, List.map_cons, List.mem_cons, hnm, false_or]
  exact mem_keys_eraseFile_iff d h

/-! ## Helper lemmas: filenames and the archival pattern -/

theorem create_filename_some_length (username d : String) :
    (create_filename username (some d)).length
      = username.length + d.length + 9 := by
  have h1 : "old_".length = 4 := rfl
  have h2 : "_".length = 1 := rfl
  have h3 : ".txt".length = 4 := rfl
  simp [create_filename, String.length_append, h1, h2, h3]
  omega

theorem create_filename_none_length (username : String) :
    (create_filename username none).length = username.length + 4 := by
  have h3 : ".txt".length = 4 := rfl
  simp [create_filename, String.length_append, h3]

theorem create_filename_arch_ne_current (username d : String) :
    create_filename username (some d) ≠ create_filename username none := by
  intro h
  have := congrArg String.length h
  rw [create_filename_some_length, create_filename_none_length] at this
  omega

theorem dropPrefixChars_length {p s r : List Char}
    (h : dropPrefixChars p s = some r) : s.length = p.length + r.length := by
  induction p generalizing s with
  | nil =>
    simp [dropPrefixChars] at h
    simp [h]
  | cons a ps ih =>
    match s with
    | [] => simp [dropPrefixChars] at h
    | c :: cs =>
      by_cases hac : a == c
      · simp only [dropPrefixChars, hac, if_pos] at h
        have := ih h
        simp [this]
        omega
      · simp [dropPrefixChars, hac] at h

theorem dropPrefixChars_append (p r : List Char) :
    dropPrefixChars p (p ++ r) = some r := by
  induction p with
  | nil => rfl
  | cons a ps ih => simp [dropPrefixChars, ih]

/-- The current-named file `{username}.txt` never matches the archival
regex for the same username: the literal prefix `old_{username}_` is
longer than the whole filename. -/
theorem matchArchivalName_current_eq_none (username : String)
    (hu : regexUsernameLiteral username = some username.data) :
    matchArchivalName username (create_filename username none) = none := by
  simp only [matchArchivalName, hu]
  cases hdp : dropPrefixChars ("old_".data ++ username.data ++ "_".data)
      (create_filename username none).data with
  | none => rfl
  | some rest =>
    exfalso
    have hlen := dropPrefixChars_length hdp
    have h1 : ("old_".data ++ username.data ++ "_".data).length
        = username.length + 5 := by
      have h4 : ("old_".data).length = 4 := rfl
      have h5 : ("_".data).length = 1 := rfl
      have hud : username.data.length = username.length := rfl
      simp [List.length_append, h4, h5, hud]
    have h2 : (create_filename username none).data.length
        = username.length + 4 := by
      have : (create_filename username none).data.length
          = (create_filename username none).length := rfl
      rw [this, create_filename_none_length]
    omega

/-- For a username whose fragment matches itself literally, the
sentinel-named archive `old_{username}_0.txt` never matches the
archival regex: `"0"` is no four-digit year. -/
theorem matchArchivalName_zero_eq_none (username : String)
    (hu : regexUsernameLiteral username = some username.data) :
    matchArchivalName username (create_filename username (some "0")) = none := by
  simp only [matchArchivalName, hu]
  have hdata : (create_filename username (some "0")).data
      = ("old_".data ++ username.data ++ "_".data) ++ "0.txt".data := by
    show ("old_" ++ username ++ "_" ++ "0" ++ ".txt").data = _
    simp [String.data_append]
  rw [hdata, dropPrefixChars_append]
  rfl

/-! ## Helper lemmas: the datetime order -/

theorem dateLt_irrefl (a : PyDate) : dateLt a a = false := by
  simp [dateLt]

theorem dateLt_trans {a b c : PyDate} (h1 : dateLt a b = true)
    (h2 : dateLt b c = true) : dateLt a c = true := by
  simp only [dateLt, ne_eq, ite_not] at h1 h2 ⊢
  split_ifs at h1 h2 ⊢ <;> simp_all <;> omega

theorem dateLt_ff_trans {a b c : PyDate} (h1 : dateLt a b = false)
    (h2 : dateLt b c = false) : dateLt a c = false := by
  simp only [dateLt, ne_eq, ite_not] at h1 h2 ⊢
  split_ifs at h1 h2 ⊢ <;> simp_all <;> omega

/-! ## Helper lemmas: the `get_last_report` loop -/

/-- Full characterisation of a non-raising run of the selection loop:
a `none` result means the accumulator was empty and nothing matched; a
`some f` result carries a file with a valid parsed date that is
`dateLt`-maximal among the accumulator and every matching name of the
scanned list (maximal parsed date = smallest `today - file_date`). -/
theorem glr_loop_spec (u : String) :
    ∀ (names : List String) (acc : Option (PyDate × String)) (res : Option String),
    glr_loop u names acc = .ok res →
    (∀ db gb, acc = some (db, gb) → dateOfFile u gb = some db) →
    ((res = none → acc = none ∧ ∀ g ∈ names, matchArchivalName u g = none)
      ∧ (∀ f, res = some f →
        ∃ d, dateOfFile u f = some d
          ∧ (acc = some (d, f) ∨ f ∈ names)
          ∧ (∀ db gb, acc = some (db, gb) → dateLt d db = false)
          ∧ (∀ g ∈ names, ∀ dg, dateOfFile u g = some dg → dateLt d dg = false))) := by
  intro names
  induction names with
  | nil =>
    intro acc res hglr hacc
    simp only [glr_loop] at hglr
    constructor
    · intro hres
      subst hres
      rcases acc with _ | ⟨db, gb⟩
      · exact ⟨rfl, by simp⟩
      · simp at hglr
    · intro f hres
      subst hres
      rcases acc with _ | ⟨db, gb⟩
      · simp at hglr
      · simp at hglr
        subst hglr
        refine ⟨db, hacc db gb rfl, Or.inl rfl, ?_, by simp⟩
        intro db' gb' heq
        injection heq with heq
        injection heq with h1 h2
        subst h1
        exact dateLt_irrefl db
  | cons f0 rest ih =>
    intro acc res hglr hacc
    cases hm : matchArchivalName u f0 with
    | none =>
      simp only [glr_loop, hm] at hglr
      rcases ih acc res hglr hacc with ⟨ih1, ih2⟩
      constructor
      · intro hres
        rcases ih1 hres with ⟨ha, hall⟩
        refine ⟨ha, ?_⟩
        intro g hg
        rcases List.mem_cons.mp hg with h1 | h1
        · exact h1 ▸ hm
        · exact hall g h1
      · intro f hres
        rcases ih2 f hres with ⟨d, hd, hmem, hacb, hmax⟩
        refine ⟨d, hd, ?_, hacb, ?_⟩
        · rcases hmem with h1 | h1
          · exact Or.inl h1
          · exact Or.inr (List.mem_cons_of_mem _ h1)
        · intro g hg dg hdg
          rcases List.mem_cons.mp hg with h1 | h1
          · exfalso
            rw [h1] at hdg
            simp [dateOfFile, hm] at hdg
          · exact hmax g h1 dg hdg
    | some t =>
      obtain ⟨y, mo, dy, hr, mi⟩ := t
      cases hmk : mkDatetime y mo dy hr mi with
      | none => simp [glr_loop, hm, hmk] at hglr
      | some fd =>
        have hdf0 : dateOfFile u f0 = some fd := by
          simp [dateOfFile, hm, hmk]
        rcases acc with _ | ⟨best, bf⟩
        · simp only [glr_loop, hm, hmk] at hglr
          have hacc' : ∀ db gb, (some (fd, f0) : Option (PyDate × String))
              = some (db, gb) → dateOfFile u gb = some db := by
            intro db gb heq
            injection heq with heq
            injection heq with h1 h2
            rw [← h1, ← h2]
            exact hdf0
          rcases ih (some (fd, f0)) res hglr hacc' with ⟨ih1, ih2⟩
          constructor
          · intro hres
            rcases ih1 hres with ⟨ha, _⟩
            exact absurd ha (by simp)
          · intro f hres
            rcases ih2 f hres with ⟨d, hd, hmem, hacb, hmax⟩
            refine ⟨d, hd, ?_, by simp, ?_⟩
            · rcases hmem with h1 | h1
              · injection h1 with h1
                injection h1 with hd1 hf1
                exact Or.inr (hf1 ▸ List.mem_cons_self f0 rest)
              · exact Or.inr (List.mem_cons_of_mem _ h1)
            · intro g hg dg hdg
              rcases List.mem_cons.mp hg with h1 | h1
              · rw [h1] at hdg
                rw [hdf0] at hdg
                injection hdg with hdg
                rw [← hdg]
                exact hacb fd f0 rfl
              · exact hmax g h1 dg hdg
        · cases hlt : dateLt best fd with
          | true =>
            simp only [glr_loop, hm, hmk, hlt, if_pos] at hglr
            have hacc' : ∀ db gb, (some (fd, f0) : Option (PyDate × String))
                = some (db, gb) → dateOfFile u gb = some db := by
              intro db gb heq
              injection heq with heq
              injection heq with h1 h2
              rw [← h1, ← h2]
              exact hdf0
            rcases ih (some (fd, f0)) res hglr hacc' with ⟨ih1, ih2⟩
            constructor
            · intro hres
              rcases ih1 hres with ⟨ha, _⟩
              exact absurd ha (by simp)
            · intro f hres
              rcases ih2 f hres with ⟨d, hd, hmem, hacb, hmax⟩
              have hdfd : dateLt d fd = false := hacb fd f0 rfl
              refine ⟨d, hd, ?_, ?_, ?_⟩
              · rcases hmem with h1 | h1
                · injection h1 with h1
                  injection h1 with hd1 hf1
                  exact Or.inr (hf1 ▸ List.mem_cons_self f0 rest)
                · exact Or.inr (List.mem_cons_of_mem _ h1)
              · intro db gb heq
                injection heq with heq
                injection heq with h1 h2
                rw [← h1]
                cases hdb : dateLt d best with
                | false => rfl
                | true =>
                  exfalso
                  have := dateLt_trans hdb hlt
                  rw [hdfd] at this
                  exact Bool.noConfusion this
              · intro g hg dg hdg
                rcases List.mem_cons.mp hg with h1 | h1
                · rw [h1] at hdg
                  rw [hdf0] at hdg
                  injection hdg with hdg
                  rw [← hdg]
                  exact hdfd
                · exact hmax g h1 dg hdg
          | false =>
            simp only [glr_loop, hm, hmk, hlt] at hglr
            rcases ih (some (best, bf)) res hglr hacc with ⟨ih1, ih2⟩
            constructor
            · intro hres
              rcases ih1 hres with ⟨ha, _⟩
              exact absurd ha (by simp)
            · intro f hres
              rcases ih2 f hres with ⟨d, hd, hmem, hacb, hmax⟩
              have hdb : dateLt d best = false := hacb best bf rfl
              refine ⟨d, hd, ?_, hacb, ?_⟩
              · rcases hmem with h1 | h1
                · exact Or.inl h1
                · exact Or.inr (List.mem_cons_of_mem _ h1)
              · intro g hg dg hdg
                rcases List.mem_cons.mp hg with h1 | h1
                · rw [h1] at hdg
                  rw [hdf0] at hdg
                  injection hdg with hdg
                  rw [← hdg]
                  exact dateLt_ff_trans hdb hlt
                · exact hmax g h1 dg hdg

/-- A scan over names none of which match returns the accumulator
unchanged (in particular `ok none` when it was empty). -/
theorem glr_loop_no_match (u : String) (names : List String)
    (h : ∀ g ∈ names, matchArchivalName u g = none) :
    ∀ acc, glr_loop u names acc = .ok (acc.map Prod.snd) := by
  induction names with
  | nil => intro acc; rfl
  | cons f0 rest ih =>
    intro acc
    have h0 : matchArchivalName u f0 = none := h f0 (List.mem_cons_self f0 rest)
    simp only [glr_loop, h0]
    exact ih (fun g hg => h g (List.mem_cons_of_mem _ hg)) acc

/-! ## Helper lemmas: the save lifecycle -/

/-- After the check-and-archive step the current-named file is always
absent: either it never existed or it was just renamed away. -/
theorem lookup_archivePhase_current (fs : Dir) (username : String) :
    lookupFile (archivePhase fs username) (create_filename username none) = none := by
  simp only [archivePhase]
  cases h : lookupFile fs (create_filename username none) with
  | none => simp only [h]
  | some c =>
    simp only [h]
    exact lookupFile_renameFile_src fs h
      (Ne.symm (create_filename_arch_ne_current username (dateOrZero c)))

/-- The archive step moves the prior content to the archival name built
from its extracted date. -/
theorem lookup_archivePhase_arch (fs : Dir) (username : String) {c : String}
    (h : lookupFile fs (create_filename username none) = some c) :
    lookupFile (archivePhase fs username)
      (create_filename username (some (dateOrZero c))) = some c := by
  simp only [archivePhase]
  rw [h]
  exact lookupFile_renameFile_dst fs h

/-- A file with a parsed archival date matches the archival regex. -/
theorem match_ne_none_of_dateOfFile {u f : String} {d : PyDate}
    (h : dateOfFile u f = some d) : matchArchivalName u f ≠ none := by
  intro hm
  rw [dateOfFile, hm] at h
  exact Option.noConfusion h

/-- Shape of a failing save: when verification does not yield `True`,
`save_report` proceeds to the rollback search over a directory `fs3`
in which the current-named file is absent and everything else is as
the archive step left it. -/
theorem save_report_rollback_shape (fs : Dir) (report username : String)
    (wr : Option String)
    (hval : validate_file (writePhase (archivePhase fs username)
        (create_filename username none) wr) (create_filename username none)
        report ≠ some true) :
    ∃ fs3, save_report fs report username wr
        = afterSearch fs3 (create_filename username none) username
      ∧ lookupFile fs3 (create_filename username none) = none
      ∧ (∀ m, m ≠ create_filename username none →
          lookupFile fs3 m = lookupFile (archivePhase fs username) m)
      ∧ (∀ m, m ≠ create_filename username none →
          (m ∈ fs3.map Prod.fst ↔ m ∈ (archivePhase fs username).map Prod.fst)) := by
  have hArp := lookup_archivePhase_current fs username
  cases wr with
  | none =>
    have hv : validate_file (writePhase (archivePhase fs username)
        (create_filename username none) none) (create_filename username none)
        report = none := by
      simp [writePhase, validate_file, hArp]
    refine ⟨archivePhase fs username, ?_, hArp, fun m _ => rfl, fun m _ => Iff.rfl⟩
    simp [save_report, reconcile, writePhase] at hv ⊢
    rw [hv]
  | some s =>
    have hlk : lookupFile (writePhase (archivePhase fs username)
        (create_filename username none) (some s))
        (create_filename username none) = some s := by
      simp [writePhase, lookupFile_setFile_self]
    have hv : validate_file (writePhase (archivePhase fs username)
        (create_filename username none) (some s)) (create_filename username none)
        report = some (s == report) := by
      simp [validate_file, hlk]
    have hsr : (s == report) = false := by
      cases hb : s == report with
      | false => rfl
      | true => exact absurd (by rw [hv, hb]) hval
    rw [hsr] at hv
    refine ⟨eraseFile (writePhase (archivePhase fs username)
        (create_filename username none) (some s)) (create_filename username none),
      ?_, lookupFile_eraseFile_self _ _, ?_, ?_⟩
    · simp only [save_report, reconcile]
      rw [hv]
    · intro m hm
      rw [lookupFile_eraseFile_ne _ hm]
      simp only [writePhase]
      exact lookupFile_setFile_ne _ _ hm
    · intro m hm
      rw [mem_keys_eraseFile_iff _ hm]
      simp only [writePhase]
      exact mem_keys_setFile_iff _ _ hm

/-- C1: for every username and report text, when `save_report`
completes with the write step passing verification
(`validate_file` yields `True`), the directory afterwards holds
exactly one current-named file `{username}.txt` (with the new report
as its content, since verification compared it), and if a
current-named file with content `c` existed before the save, `c` now
exists under the archival name `old_{username}_{date}.txt` built from
the timestamp extracted from `c` (the extracted timestamp string, or
the sentinel rendering `"0"` when `c` contains none). -/
theorem c1_save_verified_invariant (fs : Dir) (report username : String)
    (wr : Option String)
    (hv : validate_file (writePhase (archivePhase fs username)
        (create_filename username none) wr) (create_filename username none)
        report = some true) :
    save_report fs report username wr
        = .ok (writePhase (archivePhase fs username)
            (create_filename username none) wr)
      ∧ countName (writePhase (archivePhase fs username)
          (create_filename username none) wr) (create_filename username none) = 1
      ∧ (∀ c, lookupFile fs (create_filename username none) = some c →
          lookupFile (writePhase (archivePhase fs username)
              (create_filename username none) wr)
            (create_filename username (some (dateOrZero c))) = some c) := by
  have hArp := lookup_archivePhase_current fs username
  have hwr : ∃ s, wr = some s := by
    cases wr with
    | none =>
      exfalso
      simp [writePhase, validate_file, hArp] at hv
    | some s => exact ⟨s, rfl⟩
  rcases hwr with ⟨s, rfl⟩
  refine ⟨?_, ?_, ?_⟩
  · simp only [save_report, reconcile]
    rw [hv]
  · simp only [writePhase]
    exact countName_setFile _ _ _
  · intro c hc
    have harch := lookup_archivePhase_arch fs username hc
    simp only [writePhase]
    rw [lookupFile_setFile_ne _ _ (create_filename_arch_ne_current username _)]
    exact harch

/-- C1 witness: a concrete save over a directory holding a prior
report whose content carries the timestamp `01.02.2021 03:04`; the
write succeeds, verification passes, and the invariant holds. -/
theorem c1_save_verified_invariant_witness :
    validate_file (writePhase (archivePhase [("bob.txt", "01.02.2021 03:04")] "bob")
        (create_filename "bob" none) (some "NEW")) (create_filename "bob" none)
        "NEW" = some true
      ∧ (save_report [("bob.txt", "01.02.2021 03:04")] "NEW" "bob" (some "NEW")
          = .ok (writePhase (archivePhase [("bob.txt", "01.02.2021 03:04")] "bob")
              (create_filename "bob" none) (some "NEW"))
        ∧ countName (writePhase (archivePhase [("bob.txt", "01.02.2021 03:04")] "bob")
            (create_filename "bob" none) (some "NEW")) (create_filename "bob" none) = 1
        ∧ (∀ c, lookupFile [("bob.txt", "01.02.2021 03:04")]
              (create_filename "bob" none) = some c →
            lookupFile (writePhase (archivePhase [("bob.txt", "01.02.2021 03:04")] "bob")
                (create_filename "bob" none) (some "NEW"))
              (create_filename "bob" (some (dateOrZero c))) = some c)) :=
  ⟨by decide, c1_save_verified_invariant [("bob.txt", "01.02.2021 03:04")]
    "NEW" "bob" (some "NEW") (by decide)⟩

/-- C4: for every username whose current-named file `{username}.txt`
exists with content `c` from which the date extraction yields a
timestamp (the `get_date` regex match of the `DD.MM.YYYY HH:MM`
header substring, reformatted to `YYYY-MM-DDTHH:MM`), `save_report`
with a new report moves `c` to the archival file
`old_{username}_{reformatted}.txt`, and when the write verifies
(the canonical path holds exactly the new report after the write),
the canonical path afterwards holds only the new report text. -/
theorem c4_archive_then_overwrite (fs : Dir) (report username : String)
    {c ds : String}
    (hcur : lookupFile fs (create_filename username none) = some c)
    (hdate : get_date c = some ds) :
    save_report fs report username (some report)
        = .ok (writePhase (archivePhase fs username)
            (create_filename username none) (some report))
      ∧ lookupFile (writePhase (archivePhase fs username)
          (create_filename username none) (some report))
          (create_filename username none) = some report
      ∧ lookupFile (writePhase (archivePhase fs username)
          (create_filename username none) (some report))
          (create_filename username (some ds)) = some c := by
  have hlk : lookupFile (writePhase (archivePhase fs username)
      (create_filename username none) (some report))
      (create_filename username none) = some report := by
    simp [writePhase, lookupFile_setFile_self]
  have hv : validate_file (writePhase (archivePhase fs username)
      (create_filename username none) (some report))
      (create_filename username none) report = some true := by
    simp [validate_file, hlk]
  have hdz : dateOrZero c = ds := by simp [dateOrZero, hdate]
  have harch := lookup_archivePhase_arch fs username hcur
  rw [hdz] at harch
  refine ⟨?_, hlk, ?_⟩
  · simp only [save_report, reconcile]
    rw [hv]
  · simp only [writePhase]
    rw [lookupFile_setFile_ne _ _ (create_filename_arch_ne_current username ds)]
    exact harch

/-- C4 witness: a prior report carrying `01.02.2021 03:04` is moved to
`old_bob_2021-02-01T03:04.txt` and the canonical path holds the new
text. -/
theorem c4_archive_then_overwrite_witness :
    lookupFile [("bob.txt", "x 01.02.2021 03:04 y")] (create_filename "bob" none)
        = some "x 01.02.2021 03:04 y"
      ∧ get_date "x 01.02.2021 03:04 y" = some "2021-02-01T03:04"
      ∧ (save_report [("bob.txt", "x 01.02.2021 03:04 y")] "NEW" "bob" (some "NEW")
          = .ok (writePhase (archivePhase [("bob.txt", "x 01.02.2021 03:04 y")] "bob")
              (create_filename "bob" none) (some "NEW"))
        ∧ lookupFile (writePhase (archivePhase [("bob.txt", "x 01.02.2021 03:04 y")] "bob")
            (create_filename "bob" none) (some "NEW"))
            (create_filename "bob" none) = some "NEW"
        ∧ lookupFile (writePhase (archivePhase [("bob.txt", "x 01.02.2021 03:04 y")] "bob")
            (create_filename "bob" none) (some "NEW"))
            (create_filename "bob" (some "2021-02-01T03:04")) = some "x 01.02.2021 03:04 y") :=
  ⟨by decide, by decide,
    c4_archive_then_overwrite [("bob.txt", "x 01.02.2021 03:04 y")] "NEW" "bob"
      (by decide) (by decide)⟩

/-- C10: when an archival file `old_{username}_{T}.txt` already exists
and the check-and-archive step extracts the same timestamp `T` from
the current report (two saves within the same rendered minute), the
`os.rename` silently replaces the existing archival file: after the
save the archival name holds the just-superseded content and the
previously archived content is gone from it. -/
theorem c10_archive_collision (fs : Dir) (report username : String)
    {c ds oldContent : String}
    (hcur : lookupFile fs (create_filename username none) = some c)
    (hdate : get_date c = some ds)
    (hold : lookupFile fs (create_filename username (some ds)) = some oldContent)
    (hne : oldContent ≠ c) :
    save_report fs report username (some report)
        = .ok (writePhase (archivePhase fs username)
            (create_filename username none) (some report))
      ∧ lookupFile (writePhase (archivePhase fs username)
          (create_filename username none) (some report))
          (create_filename username (some ds)) = some c
      ∧ lookupFile (writePhase (archivePhase fs username)
          (create_filename username none) (some report))
          (create_filename username (some ds)) ≠ some oldContent := by
  rcases c4_archive_then_overwrite fs report username hcur hdate with ⟨h1, _, h3⟩
  refine ⟨h1, h3, ?_⟩
  rw [h3]
  intro hh
  injection hh with hh
  exact hne hh.symm

/-- C10 witness: the pre-existing `old_bob_2021-02-01T03:04.txt`
content `PREV` is replaced by the superseded report content. -/
theorem c10_archive_collision_witness :
    lookupFile [("bob.txt", "01.02.2021 03:04"),
        ("old_bob_2021-02-01T03:04.txt", "PREV")] (create_filename "bob" none)
        = some "01.02.2021 03:04"
      ∧ get_date "01.02.2021 03:04" = some "2021-02-01T03:04"
      ∧ lookupFile [("bob.txt", "01.02.2021 03:04"),
          ("old_bob_2021-02-01T03:04.txt", "PREV")]
          (create_filename "bob" (some "2021-02-01T03:04")) = some "PREV"
      ∧ (save_report [("bob.txt", "01.02.2021 03:04"),
            ("old_bob_2021-02-01T03:04.txt", "PREV")] "NEW" "bob" (some "NEW")
          = .ok (writePhase (archivePhase [("bob.txt", "01.02.2021 03:04"),
              ("old_bob_2021-02-01T03:04.txt", "PREV")] "bob")
              (create_filename "bob" none) (some "NEW"))
        ∧ lookupFile (writePhase (archivePhase [("bob.txt", "01.02.2021 03:04"),
            ("old_bob_2021-02-01T03:04.txt", "PREV")] "bob")
            (create_filename "bob" none) (some "NEW"))
            (create_filename "bob" (some "2021-02-01T03:04")) = some "01.02.2021 03:04"
        ∧ lookupFile (writePhase (archivePhase [("bob.txt", "01.02.2021 03:04"),
            ("old_bob_2021-02-01T03:04.txt", "PREV")] "bob")
            (create_filename "bob" none) (some "NEW"))
            (create_filename "bob" (some "2021-02-01T03:04")) ≠ some "PREV") :=
  ⟨by decide, by decide, by decide,
    c10_archive_collision [("bob.txt", "01.02.2021 03:04"),
        ("old_bob_2021-02-01T03:04.txt", "PREV")] "NEW" "bob"
      (by decide) (by decide) (by decide) (by decide)⟩

/-- C3 counterexample: the claim says a failing write with no archival
file for the username present leaves no current-named file; but the
username is spliced unescaped into the rollback regex, so for the
sanitized username `a(f_slash)b` the pattern demands the literal text
`af_slashb` — and the archive of *another* user,
`old_af_slashb_2020-01-02T03:04.txt`, matches it.  Although no archival
file for `a(f_slash)b` exists (no directory entry fits the naming
pattern of the claim, as `specArchivalPattern` certifies), the rollback
restores that foreign archive to `a(f_slash)b.txt`, so a current-named
file does exist afterwards. -/
theorem c3_counterexample :
    validate_file (writePhase (archivePhase
        [("old_af_slashb_2020-01-02T03:04.txt", "OTHER")] "a(f_slash)b")
        (create_filename "a(f_slash)b" none) none)
        (create_filename "a(f_slash)b" none) "NEW" ≠ some true
      ∧ (∀ f ∈ ([("old_af_slashb_2020-01-02T03:04.txt", "OTHER")] : Dir).map
          Prod.fst, specArchivalPattern "a(f_slash)b" f = false)
      ∧ save_report [("old_af_slashb_2020-01-02T03:04.txt", "OTHER")] "NEW"
          "a(f_slash)b" none = .ok [("a(f_slash)b.txt", "OTHER")]
      ∧ lookupFile [("a(f_slash)b.txt", "OTHER")]
          (create_filename "a(f_slash)b" none) = some "OTHER" :=
  ⟨by decide, by decide, by rfl, by rfl⟩

/-- C3 (amended): for a username whose spliced regex fragment matches
the username itself literally (no regex metacharacters — in
particular not the parenthesized sanitizer output), when the write
step fails verification (`validate_file` yields `False` or `None`)
and no filename in the directory at rollback-search time (the state
after the check-and-archive step) matches the archival pattern for
the username, `save_report` returns with no current-named file
`{username}.txt` present. -/
theorem c3_rollback_no_history (fs : Dir) (report username : String)
    (wr : Option String)
    (hu : regexUsernameLiteral username = some username.data)
    (hval : validate_file (writePhase (archivePhase fs username)
        (create_filename username none) wr) (create_filename username none)
        report ≠ some true)
    (hnone : ∀ g ∈ (archivePhase fs username).map Prod.fst,
        matchArchivalName username g = none) :
    ∃ fs', save_report fs report username wr = .ok fs'
      ∧ lookupFile fs' (create_filename username none) = none := by
  rcases save_report_rollback_shape fs report username wr hval with
    ⟨fs3, hsave, hrp, hlk, hkeys⟩
  have hnone3 : ∀ g ∈ fs3.map Prod.fst, matchArchivalName username g = none := by
    intro g hg
    by_cases hgrp : g = create_filename username none
    · rw [hgrp]
      exact matchArchivalName_current_eq_none username hu
    · exact hnone g ((hkeys g hgrp).mp hg)
  have hglr : get_last_report fs3 username = .ok none :=
    glr_loop_no_match username (fs3.map Prod.fst) hnone3 none
  refine ⟨fs3, ?_, hrp⟩
  rw [hsave]
  simp [afterSearch, hglr]

/-- C3 witness: a failing write (`open` raised, nothing landed) over a
directory whose only file is a current report with no parseable
timestamp; it is archived as `old_bob_0.txt`, which the rollback
search cannot see, so no canonical file remains. -/
theorem c3_rollback_no_history_witness :
    regexUsernameLiteral "bob" = some "bob".data
      ∧ validate_file (writePhase (archivePhase [("bob.txt", "junk")] "bob")
          (create_filename "bob" none) none) (create_filename "bob" none)
          "NEW" ≠ some true
      ∧ (∀ g ∈ (archivePhase [("bob.txt", "junk")] "bob").map Prod.fst,
          matchArchivalName "bob" g = none)
      ∧ ∃ fs', save_report [("bob.txt", "junk")] "NEW" "bob" none = .ok fs'
          ∧ lookupFile fs' (create_filename "bob" none) = none :=
  ⟨by rfl, by decide, by decide,
    c3_rollback_no_history [("bob.txt", "junk")] "NEW" "bob" none
      (by rfl) (by decide) (by decide)⟩

/-- C2 counterexample: the claim says a failing write with an archival
file present restores the most recent archival content to the
canonical path and removes it from its archival name; but the
username is spliced unescaped into the rollback regex, so for the
sanitized username `a(f_slash)b` (exactly what the orchestrator
produces from `a/b`) the pattern demands the literal text `af_slashb`
and the archive the program itself created,
`old_a(f_slash)b_2020-01-02T03:04.txt`, never matches.  The rollback
search finds nothing: after the failing save the canonical path is
absent and the archival file is untouched — both conclusions of the
claim fail although an archival file with the claimed name exists. -/
theorem c2_counterexample :
    create_filename "a(f_slash)b" (some "2020-01-02T03:04")
        = "old_a(f_slash)b_2020-01-02T03:04.txt"
      ∧ validate_file (writePhase (archivePhase
          [("old_a(f_slash)b_2020-01-02T03:04.txt", "OLD")] "a(f_slash)b")
          (create_filename "a(f_slash)b" none) none)
          (create_filename "a(f_slash)b" none) "NEW" ≠ some true
      ∧ save_report [("old_a(f_slash)b_2020-01-02T03:04.txt", "OLD")] "NEW"
          "a(f_slash)b" none
        = .ok [("old_a(f_slash)b_2020-01-02T03:04.txt", "OLD")]
      ∧ lookupFile [("old_a(f_slash)b_2020-01-02T03:04.txt", "OLD")]
          (create_filename "a(f_slash)b" none) = none
      ∧ lookupFile [("old_a(f_slash)b_2020-01-02T03:04.txt", "OLD")]
          (create_filename "a(f_slash)b" (some "2020-01-02T03:04"))
        = some "OLD" :=
  ⟨by rfl, by decide, by rfl, by rfl, by rfl⟩

/-- C2 (amended): for a username whose spliced regex fragment matches
the username itself literally (no regex metacharacters — in
particular not the parenthesized sanitizer output), when the write
step fails verification (`validate_file` yields `False` or `None`),
`save_report` returns normally, and at rollback time (after the
check-and-archive step) at least one filename matches the archival
pattern, then the canonical path afterwards holds the content of an
archival file whose embedded timestamp is `dateLt`-maximal among all
matching files — i.e. whose `today - file_date` delta is smallest —
and that archival file no longer exists under its archival name. -/
theorem c2_rollback_restores_most_recent (fs fsAfter : Dir)
    (report username : String) (wr : Option String)
    (hu : regexUsernameLiteral username = some username.data)
    (hval : validate_file (writePhase (archivePhase fs username)
        (create_filename username none) wr) (create_filename username none)
        report ≠ some true)
    (hok : save_report fs report username wr = .ok fsAfter)
    (hex : ∃ g ∈ (archivePhase fs username).map Prod.fst,
        matchArchivalName username g ≠ none) :
    ∃ f d c, dateOfFile username f = some d
      ∧ f ∈ (archivePhase fs username).map Prod.fst
      ∧ lookupFile (archivePhase fs username) f = some c
      ∧ (∀ g ∈ (archivePhase fs username).map Prod.fst, ∀ dg,
          dateOfFile username g = some dg → dateLt d dg = false)
      ∧ lookupFile fsAfter (create_filename username none) = some c
      ∧ lookupFile fsAfter f = none := by
  rcases save_report_rollback_shape fs report username wr hval with
    ⟨fs3, hsave, hrp, hlk, hkeys⟩
  rw [hsave] at hok
  rcases hex with ⟨g0, hg0A, hg0m⟩
  have hg0rp : g0 ≠ create_filename username none := by
    intro hh
    rw [hh, matchArchivalName_current_eq_none username hu] at hg0m
    exact hg0m rfl
  have hg03 : g0 ∈ fs3.map Prod.fst := (hkeys g0 hg0rp).mpr hg0A
  cases hglr : get_last_report fs3 username with
  | error e =>
    exfalso
    rw [afterSearch, hglr] at hok
    exact Except.noConfusion hok
  | ok r =>
    rcases glr_loop_spec username (fs3.map Prod.fst) none r hglr
        (by intro db gb h; exact Option.noConfusion h) with ⟨hnone, hsome⟩
    cases r with
    | none =>
      exfalso
      rcases hnone rfl with ⟨_, hall⟩
      exact hg0m (hall g0 hg03)
    | some f =>
      rcases hsome f rfl with ⟨d, hd, hmem, _, hmax⟩
      have hf3 : f ∈ fs3.map Prod.fst := by
        rcases hmem with h1 | h1
        · exact Option.noConfusion h1
        · exact h1
      have hfrp : f ≠ create_filename username none := by
        intro hh
        exact match_ne_none_of_dateOfFile hd
          (hh ▸ matchArchivalName_current_eq_none username hu)
      rcases lookupFile_isSome_of_mem_keys fs3 hf3 with ⟨c, hc3⟩
      have hcA : lookupFile (archivePhase fs username) f = some c := by
        rw [← hlk f hfrp]
        exact hc3
      have hfsAfter : fsAfter = renameFile fs3 f (create_filename username none) := by
        rw [afterSearch, hglr] at hok
        simp at hok
        exact hok.symm
      refine ⟨f, d, c, hd, (hkeys f hfrp).mp hf3, hcA, ?_, ?_, ?_⟩
      · intro g hgA dg hdg
        have hgrp : g ≠ create_filename username none := by
          intro hh
          exact match_ne_none_of_dateOfFile hdg
            (hh ▸ matchArchivalName_current_eq_none username hu)
        exact hmax g ((hkeys g hgrp).mpr hgA) dg hdg
      · rw [hfsAfter]
        exact lookupFile_renameFile_dst fs3 hc3
      · rw [hfsAfter]
        exact lookupFile_renameFile_src fs3 hc3 hfrp

/-- C2 witness: a failing write over a directory holding two archival
reports for `bob`; the 2020 one (largest timestamp, smallest delta) is
restored to `bob.txt` and is gone from its archival name. -/
theorem c2_rollback_restores_most_recent_witness :
    regexUsernameLiteral "bob" = some "bob".data
      ∧ validate_file (writePhase (archivePhase
        [("old_bob_2020-01-02T03:04.txt", "OLD"),
          ("old_bob_2019-01-02T03:04.txt", "OLDER")] "bob")
        (create_filename "bob" none) none) (create_filename "bob" none)
        "NEW" ≠ some true
      ∧ save_report [("old_bob_2020-01-02T03:04.txt", "OLD"),
          ("old_bob_2019-01-02T03:04.txt", "OLDER")] "NEW" "bob" none
        = .ok [("bob.txt", "OLD"), ("old_bob_2019-01-02T03:04.txt", "OLDER")]
      ∧ (∃ g ∈ (archivePhase [("old_bob_2020-01-02T03:04.txt", "OLD"),
            ("old_bob_2019-01-02T03:04.txt", "OLDER")] "bob").map Prod.fst,
          matchArchivalName "bob" g ≠ none)
      ∧ ∃ f d c, dateOfFile "bob" f = some d
          ∧ f ∈ (archivePhase [("old_bob_2020-01-02T03:04.txt", "OLD"),
              ("old_bob_2019-01-02T03:04.txt", "OLDER")] "bob").map Prod.fst
          ∧ lookupFile (archivePhase [("old_bob_2020-01-02T03:04.txt", "OLD"),
              ("old_bob_2019-01-02T03:04.txt", "OLDER")] "bob") f = some c
          ∧ (∀ g ∈ (archivePhase [("old_bob_2020-01-02T03:04.txt", "OLD"),
              ("old_bob_2019-01-02T03:04.txt", "OLDER")] "bob").map Prod.fst, ∀ dg,
              dateOfFile "bob" g = some dg → dateLt d dg = false)
          ∧ lookupFile [("bob.txt", "OLD"), ("old_bob_2019-01-02T03:04.txt", "OLDER")]
              (create_filename "bob" none) = some c
          ∧ lookupFile [("bob.txt", "OLD"), ("old_bob_2019-01-02T03:04.txt", "OLDER")]
              f = none :=
  ⟨by rfl, by decide, by rfl,
    ⟨"old_bob_2020-01-02T03:04.txt", by decide, by decide⟩,
    c2_rollback_restores_most_recent
      [("old_bob_2020-01-02T03:04.txt", "OLD"),
        ("old_bob_2019-01-02T03:04.txt", "OLDER")]
      [("bob.txt", "OLD"), ("old_bob_2019-01-02T03:04.txt", "OLDER")]
      "NEW" "bob" none (by rfl) (by decide) (by rfl)
      ⟨"old_bob_2020-01-02T03:04.txt", by decide, by decide⟩⟩

/-- C9 counterexample: the claim says `get_last_report` returns only
filenames matching the literal pattern
`old_{username}_{YYYY-MM-DDTHH:MM}.txt`; but the regex `.` before
`txt` is a wildcard and `re.match` leaves the tail unanchored, so the
filename `old_bob_1111-11-11T11:11ZtxtZZ` — not of the claimed form,
as `specArchivalPattern` certifies — is matched and returned, while a
genuinely pattern-shaped name would also be accepted. -/
theorem c9_counterexample :
    get_last_report [("old_bob_1111-11-11T11:11ZtxtZZ", "c")] "bob"
        = .ok (some "old_bob_1111-11-11T11:11ZtxtZZ")
      ∧ specArchivalPattern "bob" "old_bob_1111-11-11T11:11ZtxtZZ" = false
      ∧ specArchivalPattern "bob" "old_bob_1111-11-11T11:11.txt" = true :=
  ⟨by rfl, by rfl, by rfl⟩

/-- C9 (amended): every filename `get_last_report` returns matches the
archival regex `old_{username}_(\d{4})-(\d{2})-(\d{2})T(\d{2}):(\d{2}).txt`
as the code implements it — the username spliced in unescaped (so
e.g. the sanitized `a(f_slash)b` stands for the literal text
`af_slashb`), the dot before `txt` a wildcard and the tail
unanchored, so names with junk after (or instead of the dot of)
`.txt` are also eligible; and for a username whose fragment matches
itself literally (no regex metacharacters), the sentinel-named
archive `old_{username}_0.txt` (produced when the superseded report
had no parseable timestamp) is never returned, so such an archive can
never be restored by the rollback step. -/
theorem c9_last_report_pattern_amended :
    (∀ (fs : Dir) (u f : String), get_last_report fs u = .ok (some f) →
        matchArchivalName u f ≠ none)
      ∧ (∀ (fs : Dir) (u : String), regexUsernameLiteral u = some u.data →
          get_last_report fs u ≠ .ok (some (create_filename u (some "0")))) := by
  have key : ∀ (fs : Dir) (u f : String), get_last_report fs u = .ok (some f) →
      matchArchivalName u f ≠ none := by
    intro fs u f h
    rcases glr_loop_spec u (fs.map Prod.fst) none (some f) h
        (by intro db gb hh; exact Option.noConfusion hh) with ⟨_, hsome⟩
    rcases hsome f rfl with ⟨d, hd, _, _, _⟩
    exact match_ne_none_of_dateOfFile hd
  refine ⟨key, ?_⟩
  intro fs u hu h
  exact key fs u (create_filename u (some "0")) h
    (matchArchivalName_zero_eq_none u hu)

/-- C9 witness: the amended theorem applied to a well-formed archival
name and to a directory holding only the sentinel-named archive
`old_bob_0.txt` (for which the search finds nothing). -/
theorem c9_last_report_pattern_amended_witness :
    regexUsernameLiteral "bob" = some "bob".data
      ∧ matchArchivalName "bob" "old_bob_2020-01-02T03:04.txt" ≠ none
      ∧ get_last_report [("old_bob_0.txt", "junk")] "bob"
          ≠ .ok (some (create_filename "bob" (some "0"))) :=
  ⟨by rfl,
    c9_last_report_pattern_amended.1 [("old_bob_2020-01-02T03:04.txt", "c")]
      "bob" "old_bob_2020-01-02T03:04.txt" (by rfl),
    c9_last_report_pattern_amended.2 [("old_bob_0.txt", "junk")] "bob" (by rfl)⟩

/-! ## Helper lemmas: the fetch loop -/

/-- A normally-terminated drain starting at page `n` yields exactly the
bodies of pages `n, n+1, ...` (all non-empty, none raising), and stops
at the first empty page, which did not raise either. -/
theorem fetch_from_done_spec (resp : Nat → HttpResponse) :
    ∀ (fuel n : Nat) (ps : List (List PyVal)),
    fetch_from resp fuel n = .done ps →
    (∀ i, ∀ h : i < ps.length, ps.get ⟨i, h⟩ = (resp (n + i)).body
        ∧ (resp (n + i)).body.isEmpty = false
        ∧ abortsFetch (resp (n + i)) = false)
      ∧ (resp (n + ps.length)).body.isEmpty = true
      ∧ abortsFetch (resp (n + ps.length)) = false := by
  intro fuel
  induction fuel with
  | zero => intro n ps h; exact absurd h (by simp [fetch_from])
  | succ fu ih =>
    intro n ps h
    simp only [fetch_from] at h
    cases habort : abortsFetch (resp n) with
    | true => rw [habort] at h; simp at h
    | false =>
      rw [habort] at h
      simp only [Bool.false_eq_true, if_false] at h
      cases hempty : (resp n).body.isEmpty with
      | true =>
        rw [hempty] at h
        simp at h
        subst h
        refine ⟨by intro i hi; simp at hi, ?_, ?_⟩
        · simpa using hempty
        · simpa using habort
      | false =>
        rw [hempty] at h
        simp only [Bool.false_eq_true, if_false] at h
        cases hrec : fetch_from resp fu (n + 1) with
        | done ps' =>
          rw [hrec] at h
          simp at h
          subst h
          rcases ih (n + 1) ps' hrec with ⟨hall, hterm, habt⟩
          refine ⟨?_, ?_, ?_⟩
          · intro i hi
            cases i with
            | zero =>
              refine ⟨by simp [List.get], by simpa using hempty,
                by simpa using habort⟩
            | succ j =>
              have hj : j < ps'.length := by
                simp at hi
                omega
              have harith : n + (j + 1) = n + 1 + j := by omega
              rcases hall j hj with ⟨h1, h2, h3⟩
              refine ⟨?_, by rw [harith]; exact h2, by rw [harith]; exact h3⟩
              rw [harith]
              simpa [List.get] using h1
          · have harith : n + ((resp n).body :: ps').length
                = n + 1 + ps'.length := by simp; omega
            rw [harith]
            exact hterm
          · have harith : n + ((resp n).body :: ps').length
                = n + 1 + ps'.length := by simp; omega
            rw [harith]
            exact habt
        | httpError s ps' => rw [hrec] at h; simp at h
        | fuelOut => rw [hrec] at h; simp at h

/-- A drain aborted by `raise_for_status` yielded only good non-empty
pages before it, and the raised error carries the status of the first
4xx/5xx page. -/
theorem fetch_from_err_spec (resp : Nat → HttpResponse) :
    ∀ (fuel n : Nat) (s : Nat) (ps : List (List PyVal)),
    fetch_from resp fuel n = .httpError s ps →
    (∀ i, ∀ h : i < ps.length, ps.get ⟨i, h⟩ = (resp (n + i)).body
        ∧ (resp (n + i)).body.isEmpty = false
        ∧ abortsFetch (resp (n + i)) = false)
      ∧ s = (resp (n + ps.length)).status
      ∧ abortsFetch (resp (n + ps.length)) = true := by
  intro fuel
  induction fuel with
  | zero => intro n s ps h; exact absurd h (by simp [fetch_from])
  | succ fu ih =>
    intro n s ps h
    simp only [fetch_from] at h
    cases habort : abortsFetch (resp n) with
    | true =>
      rw [habort] at h
      simp at h
      rcases h with ⟨hs, hps⟩
      subst hs
      subst hps
      refine ⟨by intro i hi; simp at hi, by simp, by simpa using habort⟩
    | false =>
      rw [habort] at h
      simp only [Bool.false_eq_true, if_false] at h
      cases hempty : (resp n).body.isEmpty with
      | true => rw [hempty] at h; simp at h
      | false =>
        rw [hempty] at h
        simp only [Bool.false_eq_true, if_false] at h
        cases hrec : fetch_from resp fu (n + 1) with
        | done ps' => rw [hrec] at h; simp at h
        | httpError s' ps' =>
          rw [hrec] at h
          simp at h
          rcases h with ⟨hs, hps⟩
          subst hs
          subst hps
          rcases ih (n + 1) s' ps' hrec with ⟨hall, hstat, habt⟩
          refine ⟨?_, ?_, ?_⟩
          · intro i hi
            cases i with
            | zero =>
              refine ⟨by simp [List.get], by simpa using hempty,
                by simpa using habort⟩
            | succ j =>
              have hj : j < ps'.length := by
                simp at hi
                omega
              have harith : n + (j + 1) = n + 1 + j := by omega
              rcases hall j hj with ⟨h1, h2, h3⟩
              refine ⟨?_, by rw [harith]; exact h2, by rw [harith]; exact h3⟩
              rw [harith]
              simpa [List.get] using h1
          · have harith : n + ((resp n).body :: ps').length
                = n + 1 + ps'.length := by simp; omega
            rw [harith]
            exact hstat
          · have harith : n + ((resp n).body :: ps').length
                = n + 1 + ps'.length := by simp; omega
            rw [harith]
            exact habt
        | fuelOut => rw [hrec] at h; simp at h

/-- C8 counterexample: the claim says every response with a non-success
HTTP status makes the fetcher raise an error carrying that status; but
`raise_for_status` only raises for 4xx/5xx, so a page answered with
status 304 (non-success, outside 400-599) and an empty JSON body ends
the sequence normally (`done`, no pages) instead of raising an error
carrying 304. -/
theorem c8_counterexample :
    get_users (fun _ => ⟨304, []⟩) 5 = .done []
      ∧ (∀ s ps, get_users (fun _ => (⟨304, []⟩ : HttpResponse)) 5
          ≠ .httpError s ps)
      ∧ (304 : Nat) ≠ 200 ∧ ¬ (200 ≤ 304 ∧ (304 : Nat) ≤ 299) := by
  refine ⟨by rfl, ?_, by decide, by decide⟩
  intro s ps h
  rw [show get_users (fun _ => (⟨304, []⟩ : HttpResponse)) 5 = .done [] from rfl] at h
  exact FetchOutcome.noConfusion h

/-- C8 (amended): pages are requested with 1-based page numbers, the
sequence terminates exactly when a requested page returns an empty
list, and a response whose status is 4xx/5xx (the statuses
`raise_for_status` raises for) aborts the sequence with an error
carrying that status and no further pages; a non-200 status outside
400-599 does not raise and is processed like a 200 response. -/
theorem c8_fetch_amended (resp : Nat → HttpResponse) (fuel : Nat) :
    (∀ ps, get_users resp fuel = .done ps →
      (∀ i, ∀ h : i < ps.length, ps.get ⟨i, h⟩ = (resp (i + 1)).body
          ∧ (resp (i + 1)).body.isEmpty = false
          ∧ abortsFetch (resp (i + 1)) = false)
        ∧ (resp (ps.length + 1)).body.isEmpty = true
        ∧ abortsFetch (resp (ps.length + 1)) = false)
      ∧ (∀ s ps, get_users resp fuel = .httpError s ps →
        (∀ i, ∀ h : i < ps.length, ps.get ⟨i, h⟩ = (resp (i + 1)).body
            ∧ (resp (i + 1)).body.isEmpty = false
            ∧ abortsFetch (resp (i + 1)) = false)
          ∧ s = (resp (ps.length + 1)).status
          ∧ 400 ≤ (resp (ps.length + 1)).status
          ∧ (resp (ps.length + 1)).status ≤ 599) := by
  constructor
  · intro ps h
    rcases fetch_from_done_spec resp fuel 1 ps h with ⟨hall, hterm, habt⟩
    refine ⟨?_, ?_, ?_⟩
    · intro i hi
      have harith : i + 1 = 1 + i := by omega
      rw [harith]
      exact hall i hi
    · have harith : ps.length + 1 = 1 + ps.length := by omega
      rw [harith]
      exact hterm
    · have harith : ps.length + 1 = 1 + ps.length := by omega
      rw [harith]
      exact habt
  · intro s ps h
    rcases fetch_from_err_spec resp fuel 1 s ps h with ⟨hall, hstat, habt⟩
    have harith : ps.length + 1 = 1 + ps.length := by omega
    have habt' := habt
    simp [abortsFetch] at habt'
    have hge : 400 ≤ (resp (1 + ps.length)).status := by omega
    have hle : (resp (1 + ps.length)).status ≤ 599 := by omega
    refine ⟨?_, by rw [harith]; exact hstat,
      by rw [harith]; exact hge, by rw [harith]; exact hle⟩
    intro i hi
    have h2 : i + 1 = 1 + i := by omega
    rw [h2]
    exact hall i hi

/-- C8 witness: a first page with one record, then a 404: the fetcher
yields the first page and raises an error carrying 404. -/
theorem c8_fetch_amended_witness :
    get_users (fun n => if n = 1 then ⟨200, [PyVal.int 7]⟩ else ⟨404, []⟩) 5
        = .httpError 404 [[PyVal.int 7]]
      ∧ (404 : Nat)
          = ((fun n => if n = 1 then (⟨200, [PyVal.int 7]⟩ : HttpResponse)
              else ⟨404, []⟩) ([[PyVal.int 7]].length + 1)).status
      ∧ 400 ≤ ((fun n => if n = 1 then (⟨200, [PyVal.int 7]⟩ : HttpResponse)
          else ⟨404, []⟩) ([[PyVal.int 7]].length + 1)).status :=
  ⟨by rfl,
    ((c8_fetch_amended (fun n => if n = 1 then ⟨200, [PyVal.int 7]⟩ else ⟨404, []⟩)
        5).2 404 [[PyVal.int 7]] (by rfl)).2.1,
    ((c8_fetch_amended (fun n => if n = 1 then ⟨200, [PyVal.int 7]⟩ else ⟨404, []⟩)
        5).2 404 [[PyVal.int 7]] (by rfl)).2.2.1⟩

/-! ## Helper lemmas: the task tally -/

/-- A validated task whose `completed` value compares unequal (Python
`==`) to both `False` and `True` leaves the tally unchanged. -/
theorem tallyTask_skips_nonbool (acc : TallyAcc) (task : PyDict) {s : String}
    {c : PyVal} (ht : dictGet task "title" = .ok (.str s))
    (hc : dictGet task "completed" = .ok c)
    (hf : pyEqBool c false = false) (htr : pyEqBool c true = false) :
    tallyTask acc task = .ok acc := by
  have hval : validate_todo task = .ok (true, []) := by
    simp [validate_todo, ht, hc, bind, Except.bind, pure, Except.pure]
  by_cases hlen : 46 < s.length
  · simp [tallyTask, hval, ht, pyLen, hlen, pySliceEllipsis, hc, hf, htr]
  · simp [tallyTask, hval, ht, pyLen, hlen, hc, hf, htr]

theorem tallyList_append (l1 l2 : List PyDict) :
    ∀ acc, tallyList (l1 ++ l2) acc
      = Except.bind (tallyList l1 acc) (tallyList l2) := by
  induction l1 with
  | nil => intro acc; rfl
  | cons t rest ih =>
    intro acc
    simp only [List.cons_append, tallyList]
    cases tallyTask acc t with
    | error e => rfl
    | ok acc2 => exact ih acc2

/-- Inserting a both-ways-unequal task anywhere in a page does not
change the page tally. -/
theorem tallyList_insert_skip (p1 p2 : List PyDict) (task : PyDict) {s : String}
    {c : PyVal} (ht : dictGet task "title" = .ok (.str s))
    (hc : dictGet task "completed" = .ok c)
    (hf : pyEqBool c false = false) (htr : pyEqBool c true = false) :
    ∀ acc, tallyList (p1 ++ task :: p2) acc = tallyList (p1 ++ p2) acc := by
  intro acc
  rw [tallyList_append, tallyList_append]
  cases tallyList p1 acc with
  | error e => rfl
  | ok acc2 =>
    show tallyList (task :: p2) acc2 = tallyList p2 acc2
    simp only [tallyList, tallyTask_skips_nonbool acc2 task ht hc hf htr]

theorem tallyPages_congr_page (pre post : List (List PyDict))
    (P Q : List PyDict) (hPQ : ∀ acc, tallyList P acc = tallyList Q acc) :
    ∀ acc, tallyPages (pre ++ P :: post) acc = tallyPages (pre ++ Q :: post) acc := by
  induction pre with
  | nil =>
    intro acc
    simp only [List.nil_append, tallyPages, hPQ acc]
  | cons p rest ih =>
    intro acc
    simp only [List.cons_append, tallyPages]
    cases tallyList p acc with
    | error e => rfl
    | ok acc2 => exact ih acc2

/-- C6 counterexample: the claim says a task whose `completed` flag is
neither the literal boolean `True` nor `False` is excluded from both
lists and all counts; but Python `==` identifies `0` with `False`, so
the task `{"title": "a", "completed": 0}` — whose flag is an int, not
a boolean — is counted and listed as a current task (`Total tasks: 1`,
`## Current tasks (1)` with a `- a` line). -/
theorem c6_counterexample :
    dictGet [("title", PyVal.str "a"), ("completed", PyVal.int 0)] "completed"
        = .ok (PyVal.int 0)
      ∧ (∀ b : Bool, PyVal.int 0 ≠ PyVal.bool b)
      ∧ create_report
          [("company", PyVal.dict [("name", PyVal.str "Acme")]),
            ("name", PyVal.str "Bob"), ("email", PyVal.str "b@x"),
            ("id", PyVal.int 1)]
          (fun _ => [[[("title", PyVal.str "a"), ("completed", PyVal.int 0)]]])
          "t"
        = .ok (some ("# Report for Acme.\nBob <b@x> t\nTotal tasks: 1\n"
            ++ "\n## Current tasks (1):\n- a\n\n## Completed tasks (0):\n"), []) :=
  ⟨by rfl, fun b h => PyVal.noConfusion h, by rfl⟩

/-- C6 (amended): a task record whose `completed` value compares
unequal under Python `==` to both literal booleans — which excludes
the ints `0` and `1`, identified with `False` and `True` — is excluded
from the current list, the completed list and all three counts:
removing it from the task pages leaves `create_report`'s entire result
unchanged.  (Stated for tasks with a string title; a non-string title
can make the loop raise before the flag test.) -/
theorem c6_excluded_amended (user : PyDict) (time : String)
    (pre post : List (List PyDict)) (p1 p2 : List PyDict) (task : PyDict)
    {s : String} {c : PyVal}
    (ht : dictGet task "title" = .ok (.str s))
    (hc : dictGet task "completed" = .ok c)
    (hf : pyEqBool c false = false) (htr : pyEqBool c true = false) :
    create_report user (fun _ => pre ++ (p1 ++ task :: p2) :: post) time
      = create_report user (fun _ => pre ++ (p1 ++ p2) :: post) time := by
  have hpp : tallyPages (pre ++ (p1 ++ task :: p2) :: post) initTally
      = tallyPages (pre ++ (p1 ++ p2) :: post) initTally :=
    tallyPages_congr_page pre post _ _
      (tallyList_insert_skip p1 p2 task ht hc hf htr) initTally
  simp only [create_report, hpp]

/-- C6 witness: dropping a `completed = "maybe"` task (a string flag,
unequal to both booleans) from the middle of a page leaves the
composed report untouched. -/
theorem c6_excluded_amended_witness :
    dictGet [("title", PyVal.str "x"), ("completed", PyVal.str "maybe")] "title"
        = .ok (PyVal.str "x")
      ∧ pyEqBool (PyVal.str "maybe") false = false
      ∧ pyEqBool (PyVal.str "maybe") true = false
      ∧ create_report
          [("company", PyVal.dict [("name", PyVal.str "Acme")]),
            ("name", PyVal.str "Bob"), ("email", PyVal.str "b@x"),
            ("id", PyVal.int 1)]
          (fun _ => [[[("title", PyVal.str "a"), ("completed", PyVal.bool true)],
            [("title", PyVal.str "x"), ("completed", PyVal.str "maybe")]]])
          "t"
        = create_report
          [("company", PyVal.dict [("name", PyVal.str "Acme")]),
            ("name", PyVal.str "Bob"), ("email", PyVal.str "b@x"),
            ("id", PyVal.int 1)]
          (fun _ => [[[("title", PyVal.str "a"), ("completed", PyVal.bool true)]]])
          "t" :=
  ⟨by rfl, by rfl, by rfl,
    c6_excluded_amended
      [("company", PyVal.dict [("name", PyVal.str "Acme")]),
        ("name", PyVal.str "Bob"), ("email", PyVal.str "b@x"),
        ("id", PyVal.int 1)] "t" []
      [] [[("title", PyVal.str "a"), ("completed", PyVal.bool true)]] []
      [("title", PyVal.str "x"), ("completed", PyVal.str "maybe")]
      (by rfl) (by rfl) (by rfl) (by rfl)⟩

/-! ## Helper lemmas: dict lookups -/

/-- A dict lookup can only raise `KeyError`. -/
theorem dictGet_error {d : PyDict} {k : String} {e : PyErr}
    (h : dictGet d k = .error e) : e = .keyError := by
  induction d with
  | nil =>
    simp [dictGet] at h
    exact h.symm
  | cons p rest ih =>
    by_cases hp : p.1 = k
    · rw [show dictGet (p :: rest) k = .ok p.2 by
        cases p with
        | mk k' v => simp [dictGet] at hp ⊢; simp [hp]] at h
      exact Except.noConfusion h
    · rw [show dictGet (p :: rest) k = dictGet rest k by
        cases p with
        | mk k' v => simp [dictGet] at hp ⊢; simp [hp]] at h
      exact ih h

/-- C7 counterexample: the claim says `validate_user` never raises for
any input dictionary; but only `KeyError` is caught, so a record whose
`company` field holds a plain string makes `user["company"]["name"]`
raise an uncaught `TypeError` (string subscripted by a string key). -/
theorem c7_counterexample :
    validate_user [("company", PyVal.str "Acme Inc"), ("name", PyVal.str "B"),
        ("email", PyVal.str "e")] = .error .typeError := by
  rfl

/-- C7 (amended): `validate_todo` returns a boolean for every input
dictionary without raising, answering `False` with the
`"ToDo object is malformed"` diagnostic whenever `title` or
`completed` is missing; `validate_user` does the same (diagnostic
`"User object is malformed"` when `company`, `company["name"]`,
`name` or `email` is missing) provided the `company` field, when
present, holds a dictionary — when it holds a non-dictionary value,
`validate_user` raises an uncaught `TypeError` (see the
counterexample). -/
theorem c7_validators_amended :
    (∀ todo : PyDict, ∃ b logs, validate_todo todo = .ok (b, logs)
      ∧ (((dictGet todo "title").isOk = false
          ∨ (dictGet todo "completed").isOk = false)
        → b = false ∧ logs = ["ToDo object is malformed"]))
    ∧ (∀ user : PyDict,
        (∀ c, dictGet user "company" = .ok c → ∃ d, c = .dict d) →
        ∃ b logs, validate_user user = .ok (b, logs)
          ∧ (((dictGet user "company").isOk = false
              ∨ (∃ d, dictGet user "company" = .ok (.dict d)
                  ∧ (dictGet d "name").isOk = false)
              ∨ (dictGet user "name").isOk = false
              ∨ (dictGet user "email").isOk = false)
            → b = false ∧ logs = ["User object is malformed"])) := by
  constructor
  · intro todo
    cases h1 : dictGet todo "title" with
    | error e =>
      have he := dictGet_error h1
      subst he
      exact ⟨false, ["ToDo object is malformed"],
        by simp [validate_todo, h1, bind, Except.bind],
        fun _ => ⟨rfl, rfl⟩⟩
    | ok v1 =>
      cases h2 : dictGet todo "completed" with
      | error e =>
        have he := dictGet_error h2
        subst he
        exact ⟨false, ["ToDo object is malformed"],
          by simp [validate_todo, h1, h2, bind, Except.bind],
          fun _ => ⟨rfl, rfl⟩⟩
      | ok v2 =>
        refine ⟨true, [],
          by simp [validate_todo, h1, h2, bind, Except.bind, pure, Except.pure],
          ?_⟩
        intro hmiss
        rcases hmiss with h | h <;> simp [Except.isOk, Except.toBool] at h
  · intro user hcomp
    cases hco : dictGet user "company" with
    | error e =>
      have he := dictGet_error hco
      subst he
      exact ⟨false, ["User object is malformed"],
        by simp [validate_user, hco, bind, Except.bind],
        fun _ => ⟨rfl, rfl⟩⟩
    | ok c =>
      rcases hcomp c hco with ⟨d, rfl⟩
      cases hname : dictGet d "name" with
      | error e =>
        have he := dictGet_error hname
        subst he
        exact ⟨false, ["User object is malformed"],
          by simp [validate_user, hco, subscriptField, hname, bind, Except.bind],
          fun _ => ⟨rfl, rfl⟩⟩
      | ok v1 =>
        cases hn2 : dictGet user "name" with
        | error e =>
          have he := dictGet_error hn2
          subst he
          exact ⟨false, ["User object is malformed"],
            by simp [validate_user, hco, subscriptField, hname, hn2, bind,
              Except.bind],
            fun _ => ⟨rfl, rfl⟩⟩
        | ok v2 =>
          cases he3 : dictGet user "email" with
          | error e =>
            have he := dictGet_error he3
            subst he
            exact ⟨false, ["User object is malformed"],
              by simp [validate_user, hco, subscriptField, hname, hn2, he3,
                bind, Except.bind],
              fun _ => ⟨rfl, rfl⟩⟩
          | ok v3 =>
            refine ⟨true, [],
              by simp [validate_user, hco, subscriptField, hname, hn2, he3,
                bind, Except.bind, pure, Except.pure],
              ?_⟩
            intro hmiss
            rcases hmiss with h | ⟨d', hd', hnm⟩ | h | h
            · simp [Except.isOk, Except.toBool] at h
            · injection hd' with hd'
              injection hd' with hd'
              rw [← hd'] at hnm
              rw [hname] at hnm
              simp [Except.isOk, Except.toBool] at hnm
            · simp [Except.isOk, Except.toBool] at h
            · simp [Except.isOk, Except.toBool] at h

/-- C7 witness: the amended theorem applied to a todo missing
`completed` (answers `False` with the diagnostic) and to a user record
with no `company` key (the non-dict hypothesis holds vacuously). -/
theorem c7_validators_amended_witness :
    (∃ b logs, validate_todo [("title", PyVal.str "t")] = .ok (b, logs)
      ∧ (((dictGet [("title", PyVal.str "t")] "title").isOk = false
          ∨ (dictGet [("title", PyVal.str "t")] "completed").isOk = false)
        → b = false ∧ logs = ["ToDo object is malformed"]))
    ∧ (∃ b logs, validate_user [("name", PyVal.str "B")] = .ok (b, logs)
      ∧ (((dictGet [("name", PyVal.str "B")] "company").isOk = false
          ∨ (∃ d, dictGet [("name", PyVal.str "B")] "company" = .ok (.dict d)
              ∧ (dictGet d "name").isOk = false)
          ∨ (dictGet [("name", PyVal.str "B")] "name").isOk = false
          ∨ (dictGet [("name", PyVal.str "B")] "email").isOk = false)
        → b = false ∧ logs = ["User object is malformed"])) :=
  ⟨c7_validators_amended.1 [("title", PyVal.str "t")],
    c7_validators_amended.2 [("name", PyVal.str "B")]
      (fun _ h => Except.noConfusion h)⟩

/-- C5 counterexample: the claim says a malformed user record is
logged and skipped and never aborts the batch; but after a failed
validation the orchestrator evaluates `user["username"]` for the
diagnostic, so a record with no `username` key raises an uncaught
`KeyError` and the whole batch dies — the healthy second user (whose
lone processing succeeds) is never reached. -/
theorem c5_counterexample :
    validate_user [("name", PyVal.str "B")]
        = .ok (false, ["User object is malformed"])
      ∧ process_user [("name", PyVal.str "B")] (fun _ => []) "t"
          = .error .keyError
      ∧ (process_user [("company", PyVal.dict [("name", PyVal.str "Acme")]),
          ("name", PyVal.str "Bob"), ("email", PyVal.str "b@x"),
          ("id", PyVal.int 1), ("username", PyVal.str "bob")]
          (fun _ => []) "t").isOk = true
      ∧ run_batch [[("name", PyVal.str "B")],
          [("company", PyVal.dict [("name", PyVal.str "Acme")]),
            ("name", PyVal.str "Bob"), ("email", PyVal.str "b@x"),
            ("id", PyVal.int 1), ("username", PyVal.str "bob")]]
          (fun _ => []) "t" = .error .keyError :=
  ⟨by rfl, by rfl, by rfl, by rfl⟩

/-- C5 (amended): provided a fetched user record carries a `username`
field, the orchestrator logs a diagnostic and continues on a failed
user-validation and on the composer's empty-report signal; and a batch
whose every user iteration completes produces one outcome per user.
Without a `username` key (or with a non-dictionary `company` value)
the per-user diagnostic itself raises and aborts the whole batch (see
the counterexample). -/
theorem c5_continue_amended :
    (∀ (u : PyDict) (src : PyVal → List (List PyDict)) (t : String)
        (un : PyVal) (vlogs : List String),
      dictGet u "username" = .ok un →
      validate_user u = .ok (false, vlogs) →
      process_user u src t = .ok (.skippedInvalid,
        vlogs ++ [pyStr un ++ " " ++ " doesn\x27t have required"]))
    ∧ (∀ (u : PyDict) (src : PyVal → List (List PyDict)) (t : String)
        (un : PyVal) (rlogs : List String),
      dictGet u "username" = .ok un →
      validate_user u = .ok (true, []) →
      create_report u src t = .ok (none, rlogs) →
      process_user u src t = .ok (.skippedEmpty,
        rlogs ++ [pyStr un ++ " " ++ " doesn\x27t have todos"]))
    ∧ (∀ (users : List PyDict) (src : PyVal → List (List PyDict)) (t : String),
      (∀ u ∈ users, (process_user u src t).isOk = true) →
      ∃ rs, run_batch users src t = .ok rs ∧ rs.length = users.length) := by
  refine ⟨?_, ?_, ?_⟩
  · intro u src t un vlogs hun hval
    simp [process_user, hval, hun]
  · intro u src t un rlogs hun hval hcr
    simp [process_user, hval, hcr, hun]
  · intro users src t
    induction users with
    | nil => exact fun _ => ⟨[], rfl, rfl⟩
    | cons u rest ih =>
      intro hall
      have hu := hall u (List.mem_cons_self u rest)
      cases hpu : process_user u src t with
      | error e =>
        rw [hpu] at hu
        simp [Except.isOk, Except.toBool] at hu
      | ok r =>
        rcases ih (fun v hv => hall v (List.mem_cons_of_mem _ hv)) with
          ⟨rs, hrs, hlen⟩
        refine ⟨r :: rs, ?_, by simp [hlen]⟩
        simp [run_batch, hpu, hrs]

/-- C5 witness: a record that fails validation but carries a username
is skipped with both diagnostics, and a one-user batch of it completes
with one outcome. -/
theorem c5_continue_amended_witness :
    dictGet [("username", PyVal.str "u1")] "username" = .ok (PyVal.str "u1")
      ∧ validate_user [("username", PyVal.str "u1")]
          = .ok (false, ["User object is malformed"])
      ∧ process_user [("username", PyVal.str "u1")] (fun _ => []) "t"
          = .ok (.skippedInvalid, ["User object is malformed"]
              ++ [pyStr (PyVal.str "u1") ++ " " ++ " doesn\x27t have required"])
      ∧ ∃ rs, run_batch [[("username", PyVal.str "u1")]] (fun _ => []) "t"
          = .ok rs ∧ rs.length = [[("username", PyVal.str "u1")]].length :=
  ⟨rfl, rfl,
    c5_continue_amended.1 [("username", PyVal.str "u1")] (fun _ => []) "t"
      (PyVal.str "u1") ["User object is malformed"] rfl rfl,
    c5_continue_amended.2.2 [[("username", PyVal.str "u1")]] (fun _ => []) "t"
      (by
        intro u hu
        rw [List.mem_singleton] at hu
        subst hu
        rfl)⟩
